import Mathlib

/-!
Shallow embedding of the lihil endpoint-signature engine:
the typing utilities (`src/typing.py`), the parameter extractors (`src/params.py`),
the return parser (`src/returns.py`), the request injector (`src/signature.py`)
and the endpoint call wrapper (`src/routing.py`), together with theorems that
settle the claims about them.

Conventions used throughout:
* Python `MISSING` sentinels are `Option.none`; a present value is `some v`.
* A Python function that can raise is embedded as `Except Err α`.
* Python `dict`s are association lists with Python's insert-or-overwrite
  update (`dictSet`) and last-binding lookup (`dictGet`).
-/

namespace Lihil

/-- Runtime values flowing through extraction (decoded parameter values). -/
inductive Val where
  | vInt : Int → Val
  | vStr : String → Val
  | vBool : Bool → Val
  | vNone : Val
  | vList : List Val → Val
  | vTuple : List Val → Val
  | requestObj : Val
  | resolverObj : Val
deriving Repr

/-- `ParamSource` literal union from `lihil.interface`. -/
inductive ParamSource where
  | path | query | header | cookie | body
deriving DecidableEq, Repr

/-- The `ValidationProblem` hierarchy of `src/problems.py`: each problem records
its location (param source) and the wire param name. -/
inductive ValidationProblem where
  | missingRequestParam : ParamSource → String → ValidationProblem
  | invalidJsonReceived : ParamSource → String → ValidationProblem
  | invalidDataType : ParamSource → String → String → ValidationProblem
  | invalidFormError : ParamSource → String → ValidationProblem
  | customDecodeErrorMessage : ParamSource → String → String → ValidationProblem
deriving DecidableEq, Repr

/-- The exceptions a decoder may raise, caught by `Decodable.validate`
(`src/params.py` lines 243-253). -/
inductive DecodeErr where
  | validationError : String → DecodeErr
  | decodeError : DecodeErr
  | customValidationError : String → DecodeErr
deriving DecidableEq, Repr

/-- Python dict update: overwrite in place if the key exists, else append. -/
def dictSet {κ α : Type} [DecidableEq κ] : List (κ × α) → κ → α → List (κ × α)
  | [], k, v => [(k, v)]
  | (k', v') :: rest, k, v =>
      if k' = k then (k, v) :: rest else (k', v') :: dictSet rest k v

/-- Python dict lookup (`d[k]`): the stored binding for `k` (unique by
`dictSet`; for raw association lists built by comprehension the last wins). -/
def dictGet {κ α : Type} [DecidableEq κ] : List (κ × α) → κ → Option α
  | [], _ => none
  | (k', v') :: rest, k => match dictGet rest k with
      | some v => some v
      | none => if k' = k then some v' else none

/-- `dict.pop(k)` without default: remove the binding or raise `KeyError`. -/
def dictPop {κ α : Type} [DecidableEq κ] : List (κ × α) → κ → Option (List (κ × α))
  | [], _ => none
  | (k', v') :: rest, k =>
      if k' = k then some rest
      else match dictPop rest k with
        | some rest' => some ((k', v') :: rest')
        | none => none

/-!
Character-level embeddings of the Python string operations the source
relies on (`str.split`, `str.strip`, `int(...)`, `str.lower`, ...),
written over `List Char` so that every concrete scenario evaluates by
kernel reduction.
-/

/-- The numeric value of a decimal digit character. -/
def charDigit? (c : Char) : Option Nat :=
  if 48 ≤ c.toNat ∧ c.toNat ≤ 57 then some (c.toNat - 48) else none

/-- Accumulate decimal digits; any non-digit fails. -/
def parseNatAux : List Char → Nat → Option Nat
  | [], acc => some acc
  | c :: cs, acc =>
      match charDigit? c with
      | some d => parseNatAux cs (acc * 10 + d)
      | none => none

/-- Python `int(text)` on a plain decimal literal with optional sign. -/
def parseInt? : List Char → Option Int
  | [] => none
  | '-' :: cs =>
      match cs with
      | [] => none
      | _ => (parseNatAux cs 0).map (fun n => -(n : Int))
  | cs => (parseNatAux cs 0).map (fun n => (n : Int))

/-- Python `str.split(sep)` for a one-character separator (an empty string
yields `[""]`, as in Python). -/
def splitListOn (sep : Char) : List Char → List (List Char)
  | [] => [[]]
  | c :: cs =>
      let rest := splitListOn sep cs
      if c = sep then [] :: rest
      else
        match rest with
        | r :: rs => (c :: r) :: rs
        | [] => [[c]]

/-- Python `str.split(sep, 1)` when the separator occurs: the pieces
before and after its first occurrence. -/
def splitFirstOn (sep : Char) : List Char → Option (List Char × List Char)
  | [] => none
  | c :: cs =>
      if c = sep then some ([], cs)
      else
        match splitFirstOn sep cs with
        | some (a, b) => some (c :: a, b)
        | none => none

def isSpaceChar (c : Char) : Bool :=
  c = ' ' ∨ c = '\t' ∨ c = '\n' ∨ c = '\r'

def dropLeadingSpace : List Char → List Char
  | [] => []
  | c :: cs => if isSpaceChar c then dropLeadingSpace cs else c :: cs

/-- Python `str.strip()`. -/
def trimChars (cs : List Char) : List Char :=
  ((dropLeadingSpace ((dropLeadingSpace cs.reverse))).reverse)

/-- Strip an expected leading character sequence, or fail. -/
def stripLeading : List Char → List Char → Option (List Char)
  | [], cs => some cs
  | _, [] => none
  | p :: ps, c :: cs => if c = p then stripLeading ps cs else none

/-- Python `str.lower` on an ASCII character. -/
def lowerChar (c : Char) : Char :=
  if 65 ≤ c.toNat ∧ c.toNat ≤ 90 then Char.ofNat (c.toNat + 32) else c

/-!
## Embedding of Python type expressions (`src/typing.py`)

`PyTy` is the universe of type expressions the resolver walks; `PyMeta` is the
universe of objects usable as `Annotated` metadata or generic-alias arguments
(types, status-alias markers, plain strings, custom encoders, opaque values),
mirroring Python where `get_args` returns arbitrary objects.
-/

mutual
inductive PyTy where
  /-- a bare class such as `int`, `str`, `X`: `get_origin` is `None`. -/
  | base : String → PyTy
  /-- the `None` object used as a type annotation. -/
  | noneV : PyTy
  /-- a `TypeVar`, identified by name. -/
  | tyvar : String → PyTy
  /-- a `ForwardRef` (string annotation). -/
  | forwardRef : String → PyTy
  /-- `Annotated[X, m...]`; origin is the `Annotated` special form. -/
  | annotated : PyTy → List PyMeta → PyTy
  /-- an unsubscripted `TypeAliasType` (name, `__value__`). -/
  | alias : String → PyTy → PyTy
  /-- a subscripted `TypeAliasType` `Alias[args]` (name, `__value__`, args);
  its `get_origin` is the `TypeAliasType` itself. -/
  | aliasApp : String → PyTy → List PyMeta → PyTy
  /-- a generic alias `cls[args]` such as `list[int]`; origin is the class. -/
  | generic : String → List PyMeta → PyTy
  /-- `X | Y` (`types.UnionType`); origin is `types.UnionType`. -/
  | unionType : List PyTy → PyTy
  /-- `typing.Union[X, Y]`; origin is the `typing.Union` special form,
  which is *not* `types.UnionType`. -/
  | typingUnion : List PyTy → PyTy

inductive PyMeta where
  /-- a metadata / argument slot holding a type expression. -/
  | ty : PyTy → PyMeta
  /-- one of the status aliases of `lihil.constant.status` (e.g. `OK`),
  carrying its numeric code; `is_status` is true exactly of these. -/
  | status : Nat → PyMeta
  /-- a `CustomEncoder` instance, identified by a tag. -/
  | customEncoder : Nat → PyMeta
  /-- a plain string metadata value (response marks and content types are
  plain strings in the source). -/
  | strv : String → PyMeta
  /-- any other opaque metadata object. -/
  | other : Nat → PyMeta
end

mutual
def PyTy.beq : PyTy → PyTy → Bool
  | .base a, .base b => a == b
  | .noneV, .noneV => true
  | .tyvar a, .tyvar b => a == b
  | .forwardRef a, .forwardRef b => a == b
  | .annotated x ms, .annotated y ns => PyTy.beq x y && PyMeta.beqList ms ns
  | .alias n v, .alias m w => n == m && PyTy.beq v w
  | .aliasApp n v as', .aliasApp m w bs => n == m && PyTy.beq v w && PyMeta.beqList as' bs
  | .generic o as', .generic p bs => o == p && PyMeta.beqList as' bs
  | .unionType as', .unionType bs => PyTy.beqListU as' bs
  | .typingUnion as', .typingUnion bs => PyTy.beqListU as' bs
  | _, _ => false

def PyTy.beqListU : List PyTy → List PyTy → Bool
  | [], [] => true
  | a :: as', b :: bs => PyTy.beq a b && PyTy.beqListU as' bs
  | _, _ => false

def PyMeta.beq : PyMeta → PyMeta → Bool
  | .ty a, .ty b => PyTy.beq a b
  | .status a, .status b => a == b
  | .customEncoder a, .customEncoder b => a == b
  | .strv a, .strv b => a == b
  | .other a, .other b => a == b
  | _, _ => false

def PyMeta.beqList : List PyMeta → List PyMeta → Bool
  | [], [] => true
  | a :: as', b :: bs => PyMeta.beq a b && PyMeta.beqList as' bs
  | _, _ => false
end

instance : BEq PyTy := ⟨PyTy.beq⟩
instance : BEq PyMeta := ⟨PyMeta.beq⟩

/-- Whether `ty_get_origin` of the expression is non-`None`. -/
def tyHasOrigin : PyTy → Bool
  | .base _ => false
  | .noneV => false
  | .tyvar _ => false
  | .forwardRef _ => false
  | .alias _ _ => false
  | _ => true

/-- `typing.get_args`, returning the argument tuple as mixed objects.
`Annotated[X, m...]` yields `(X, m...)`; bare classes, `TypeVar`s,
`ForwardRef`s and unsubscripted aliases yield `()`. -/
def pyGetArgsM : PyTy → List PyMeta
  | .annotated X ms => .ty X :: ms
  | .generic _ as' => as'
  | .aliasApp _ _ as' => as'
  | .unionType as' => as'.map .ty
  | .typingUnion as' => as'.map .ty
  | _ => []

/-- `typing.get_args` applied to an arbitrary object: non-type metadata has
no arguments. -/
def metaGetArgs : PyMeta → List PyMeta
  | .ty t => pyGetArgsM t
  | _ => []

/-- `is_union_type` (`src/typing.py` lines 60-63): origin is `typing.Union`
or `types.UnionType`. -/
def isUnionType : PyTy → Bool
  | .unionType _ => true
  | .typingUnion _ => true
  | _ => false

/-- Classes (by name) that are `issubclass(-, collections.abc.Sequence)`. -/
def isSequenceClass : String → Bool
  | "list" | "tuple" | "str" | "bytes" | "bytearray" | "range"
  | "memoryview" | "deque" | "Sequence" | "MutableSequence" => true
  | _ => false

/-- The class-level test of `is_nontextual_sequence` after the origin has
been taken: not `str`/`bytes`, a `Sequence` subclass, or (non-strict) a
`set`/`frozenset` subclass. -/
def isNontextualClass (c : String) (strict : Bool) : Bool :=
  if c = "str" ∨ c = "bytes" then false
  else if isSequenceClass c then true
  else !strict && (c = "set" ∨ c = "frozenset" ∨ c = "Set" ∨ c = "FrozenSet")

mutual
/-- `is_nontextual_sequence` (`src/typing.py` lines 66-83).
`type_origin = ty_get_origin(type_) or type_`; a `typing.Union` origin
recurses over the members; a non-class origin (`Annotated`, `TypeAliasType`,
`TypeVar`, ...) gives `False`; `types.UnionType` is a class but not a
`Sequence`, hence `False`. -/
def isNontextualSequence (strict : Bool) : PyTy → Bool
  | .typingUnion as' => isNontextualSeqList strict as'
  | .generic c _ => isNontextualClass c strict
  | .base c => isNontextualClass c strict
  | _ => false

/-- `any(is_nontextual_sequence(arg, strict) for arg in get_args(type_))`. -/
def isNontextualSeqList (strict : Bool) : List PyTy → Bool
  | [] => false
  | t :: ts => isNontextualSequence strict t || isNontextualSeqList strict ts
end

mutual
/-- `deannotate` (`src/typing.py` lines 170-189): with fewer than two
`get_args`, the input is returned with `None` metadata; otherwise the first
argument is the type and the remaining arguments are the metadata, run
through the flattening loop. -/
def deannotate : PyTy → PyTy × Option (List PyMeta)
  | .annotated X ms =>
      match ms with
      | [] => (.annotated X [], none)
      | _ => (X, some (flattenMetas ms))
  | .generic o as' =>
      match as' with
      | .ty a :: b :: rest => (a, some (flattenMetas (b :: rest)))
      | _ => (.generic o as', none)
  | .aliasApp n v as' =>
      match as' with
      | .ty a :: b :: rest => (a, some (flattenMetas (b :: rest)))
      | _ => (.aliasApp n v as', none)
  | .unionType as' =>
      match as' with
      | a :: b :: rest => (a, some (flattenMetasTys (b :: rest)))
      | _ => (.unionType as', none)
  | .typingUnion as' =>
      match as' with
      | a :: b :: rest => (a, some (flattenMetasTys (b :: rest)))
      | _ => (.typingUnion as', none)
  | t => (t, none)

/-- The metadata loop of `deannotate`: an item whose origin is `Annotated`
is recursively deannotated and its metadata spliced in (when truthy),
every other item is kept as is. -/
def flattenMetas : List PyMeta → List PyMeta
  | [] => []
  | .ty (.annotated X ms) :: rest =>
      (match (deannotate (.annotated X ms)).2 with
       | some (m :: metas) => m :: metas
       | _ => []) ++ flattenMetas rest
  | item :: rest => item :: flattenMetas rest

/-- `flattenMetas` specialised to a list of types (union members viewed as
metadata items). -/
def flattenMetasTys : List PyTy → List PyMeta
  | [] => []
  | .annotated X ms :: rest =>
      (match (deannotate (.annotated X ms)).2 with
       | some (m :: metas) => m :: metas
       | _ => []) ++ flattenMetasTys rest
  | t :: rest => .ty t :: flattenMetasTys rest
end

/-- The exceptions of the embedded code: the `lihil.errors` configuration
errors, the Python builtin exceptions the code can hit, the aggregated
per-request validation exception, and fuel exhaustion of the embedding. -/
inductive Err where
  | statusConflictError : Nat → Option PyTy → Err
  | notSupportedError : String → Err
  | invalidStatusError : Err
  | typeError : Err
  | valueError : Err
  | indexError : Err
  | attributeError : Err
  | keyError : String → Err
  | invalidRequestErrors : List ValidationProblem → Err
  | fuelExhausted : Err

/-- Whether a metadata item is itself an `Annotated[...]` type — the only
items the flattening loop of `deannotate` splices rather than keeps. -/
def isAnnotatedMeta : PyMeta → Bool
  | .ty (.annotated _ _) => true
  | _ => false

mutual
/-- `is_generic_type` (`src/typing.py` lines 114-117):
`isinstance(type_, TypeVar) or any(is_generic_type(arg) for arg in get_args(type_))`. -/
def isGenericType : PyTy → Bool
  | .tyvar _ => true
  | .annotated X ms => isGenericType X || isGenericMetaList ms
  | .generic _ as' => isGenericMetaList as'
  | .aliasApp _ _ as' => isGenericMetaList as'
  | .unionType as' => isGenericTyList as'
  | .typingUnion as' => isGenericTyList as'
  | _ => false

def isGenericTyList : List PyTy → Bool
  | [] => false
  | t :: ts => isGenericType t || isGenericTyList ts

def isGenericMetaList : List PyMeta → Bool
  | [] => false
  | .ty t :: ms => isGenericType t || isGenericMetaList ms
  | _ :: ms => isGenericMetaList ms
end

/-- `recursive_get_args` (`src/typing.py` lines 160-167): one pass over the
original argument tuple, splicing each argument's own arguments into the
working list at the original index (the source iterates the original tuple
while reassigning the working one). -/
def recursiveGetArgs (type_ : PyTy) : List PyMeta :=
  match pyGetArgsM type_ with
  | [] => []
  | as' =>
      (as'.enum.foldl
        (fun cur (p : Nat × PyMeta) =>
          match metaGetArgs p.2 with
          | [] => cur
          | sub => cur.take p.1 ++ sub ++ cur.drop (p.1 + 1))
        as')

/-- Association-list lookup used for the `typevar_map` dict. -/
def lookupAssoc {α : Type} : List (String × α) → String → Option α
  | [], _ => none
  | (k', v') :: rest, k => if k' = k then some v' else lookupAssoc rest k

/-- `replace_typevars` (`src/typing.py` lines 120-140): collect the distinct
`TypeVar`s of `tyvars`, require no more of them than `nonvars` (else
`ValueError`), bind them first-come-first-served to the `nonvars`, and map
every `TypeVar` occurrence to its binding. -/
def replaceTypevars (tyvars : List PyMeta) (nonvars : List PyMeta) :
    Except Err (List PyMeta) :=
  let varNames : List String := tyvars.foldl
    (fun acc m => match m with
      | .ty (.tyvar v) => if acc.contains v then acc else acc ++ [v]
      | _ => acc) []
  if varNames.length > nonvars.length then .error .valueError
  else
    let typevarMap := varNames.zip nonvars
    .ok (tyvars.map (fun m => match m with
      | .ty (.tyvar v) => (lookupAssoc typevarMap v).getD m
      | _ => m))

/-- `repair_type_generic_alias` (`src/typing.py` lines 143-157): take the
alias's `__value__` (which must be a generic alias, else the attribute
accesses fail), substitute the caller's type arguments for its type
variables and rebuild the generic alias. -/
def repairTypeGenericAlias (value : PyTy) (typeArgs : List PyMeta) :
    Except Err PyTy :=
  match value with
  | .generic o gargs =>
      match replaceTypevars gargs typeArgs with
      | .ok res => .ok (.generic o res)
      | .error e => .error e
  | _ => .error .attributeError

/-- `typing.Union[tuple(ts)]`: nested unions are flattened, duplicates are
removed, and a singleton collapses to its only member. -/
def mkTypingUnion (ts : List PyTy) : PyTy :=
  let flat := ts.foldl
    (fun acc t => acc ++ (match t with
      | .typingUnion us => us
      | .unionType us => us
      | _ => [t])) []
  let dedup := flat.foldl (fun acc t => if acc.contains t then acc else acc ++ [t]) []
  match dedup with
  | [t] => t
  | l => .typingUnion l

/-- One pass of the inner `for idx, meta in enumerate(demetas)` loop of
`get_origin_pro`'s generic-alias branch: each `TypeVar` metadata slot pops
the next non-typevar argument (raising `IndexError` when none is left).
Returns the rewritten metadata and the remaining arguments. -/
def substPass : List PyMeta → List PyMeta → Except Err (List PyMeta × List PyMeta)
  | [], nontyvar => .ok ([], nontyvar)
  | .ty (.tyvar _) :: rest, nontyvar =>
      match nontyvar with
      | [] => .error .indexError
      | x :: nvrest =>
          match substPass rest nvrest with
          | .ok (r, nv') => .ok (x :: r, nv')
          | .error e => .error e
  | m :: rest, nontyvar =>
      match substPass rest nontyvar with
      | .ok (r, nv') => .ok (m :: r, nv')
      | .error e => .error e

/-- The `while nontyvar:` loop around `substPass`; a pass that consumes no
argument loops forever in the source, here it exhausts the fuel. -/
def substLoop (fuel : Nat) (demetas : List PyMeta) (nontyvar : List PyMeta) :
    Except Err (List PyMeta) :=
  match fuel with
  | 0 => .error .fuelExhausted
  | fuel + 1 =>
      if nontyvar.isEmpty then .ok demetas
      else
        match substPass demetas nontyvar with
        | .error e => .error e
        | .ok (demetas', nontyvar') => substLoop fuel demetas' nontyvar'

/-- The member loop of the `UnionType` branch of `get_origin_pro`: resolve
every member with no local metadata (through the supplied resolver, the
recursive call one fuel lower), collecting the resolved member types and
the concatenation of all truthy member metadata, in declaration order. -/
def unionResolveWith
    (resolve : PyTy → Option (List PyMeta) → Option (List PyMeta) →
      Except Err (PyTy × Option (List PyMeta))) :
    List PyTy → Option (List PyMeta) → Except Err (List PyTy × List PyMeta)
  | [], _ => .ok ([], [])
  | u :: us, typeArgs =>
      match resolve u none typeArgs with
      | .error e => .error e
      | .ok (utype, umeta) =>
          match unionResolveWith resolve us typeArgs with
          | .error e => .error e
          | .ok (utypes, newMetas) =>
              let addition := match umeta with
                | some (m :: ms) => m :: ms
                | _ => []
              .ok (utype :: utypes, addition ++ newMetas)

/-- `get_origin_pro` (`src/typing.py` lines 192-263), with a fuel parameter
standing for the source's unbounded recursion (the union branch recurses on
a rebuilt union and the alias branch on a dereferenced value, neither
structurally smaller); every theorem below exhibits sufficient fuel.
Branches, in source order: unsubscripted `TypeAliasType` dereference;
`ForwardRef` rejection (`TypeError`); origin-`None` direct return; capture
of the topmost type arguments; `Annotated` deannotation (inner metadata
before the accumulated outer metadata); subscripted-alias dereference with
type-variable substitution; `types.UnionType` member-wise resolution and
union rebuild; final direct return. -/
def getOriginPro : Nat → PyTy → Option (List PyMeta) → Option (List PyMeta) →
    Except Err (PyTy × Option (List PyMeta))
  | 0, _, _, _ => .error .fuelExhausted
  | fuel + 1, .alias _ value, metas, typeArgs => getOriginPro fuel value metas typeArgs
  | _ + 1, .forwardRef _, _, _ => .error .typeError
  | fuel + 1, type_, metas, typeArgs =>
    if !tyHasOrigin type_ then .ok (type_, metas)
    else
      let typeArgs' := some (typeArgs.getD (recursiveGetArgs type_))
      match type_ with
      | .annotated X ms =>
          let dres := deannotate (.annotated X ms)
          let localMetas :=
            match dres.2, metas with
            | some lm, some mss =>
                if !lm.isEmpty && !mss.isEmpty then some (lm ++ mss) else some lm
            | lm, _ => lm
          getOriginPro fuel dres.1 localMetas typeArgs'
      | .aliasApp n value as' =>
          match getOriginPro fuel value metas typeArgs' with
          | .error e => .error e
          | .ok (dtype, demetas) =>
            if isGenericType dtype then
              match demetas with
              | some (dm :: dms) =>
                  let nontyvar := (pyGetArgsM (.aliasApp n value as')).filter
                    (fun m => match m with | .ty (.tyvar _) => false | _ => true)
                  match nontyvar with
                  | [] => getOriginPro fuel dtype (some (dm :: dms)) typeArgs'
                  | nv0 :: nvrest =>
                      match nv0 with
                      | .ty dtype' =>
                          match substLoop (fuel + 1) (dm :: dms) nvrest with
                          | .error e => .error e
                          | .ok demetas' =>
                              getOriginPro fuel dtype' (some demetas') typeArgs'
                      -- the source would use a non-type argument as the new
                      -- base type; no claim input reaches this corner
                      | _ => .error .typeError
              | _ =>
                  match repairTypeGenericAlias value (typeArgs'.getD []) with
                  | .ok dtype' => .ok (dtype', none)
                  | .error e => .error e
            else getOriginPro fuel value metas typeArgs'
      | .unionType as' =>
          match unionResolveWith (getOriginPro fuel) as' typeArgs' with
          | .error e => .error e
          | .ok (utypes, newMetas) =>
            if newMetas.isEmpty then
              getOriginPro fuel (mkTypingUnion utypes) metas typeArgs'
            else
              let metas' := match metas with
                | none => newMetas
                | some mss => mss ++ newMetas
              getOriginPro fuel (mkTypingUnion utypes) (some metas') typeArgs'
      | other => .ok (other, metas)

/-!
## Parameter extractors (`src/params.py`)

Python's `alias` attribute is embedded as the field `alias_` (`alias` is a
reserved word in Lean), in the style of the source's own `type_`.
-/

/-- A decoder's input in the textual domain: Python `str | list[str]`. -/
inductive StrOrList where
  | s : String → StrOrList
  | l : List String → StrOrList
deriving DecidableEq, Repr

mutual
/-- `copy.deepcopy` on runtime values: a structurally equal fresh value. -/
def deepcopy : Val → Val
  | .vList vs => .vList (deepcopyList vs)
  | .vTuple vs => .vTuple (deepcopyList vs)
  | v => v

def deepcopyList : List Val → List Val
  | [] => []
  | v :: vs => deepcopy v :: deepcopyList vs
end

/-- `Decodable.validate` (`src/params.py` lines 243-253): run the decoder
and map each caught exception to its `ValidationProblem`, tagged with the
param's source and *name*. -/
def validateWith {α : Type} (decoder : α → Except DecodeErr Val)
    (source : ParamSource) (name : String) (raw : α) :
    Except ValidationProblem Val :=
  match decoder raw with
  | .ok value => .ok value
  | .error (.validationError msg) => .error (.invalidDataType source name msg)
  | .error .decodeError => .error (.invalidJsonReceived source name)
  | .error (.customValidationError detail) =>
      .error (.customDecodeErrorMessage source name detail)

/-- Modelled from the spec: `required: bool` is "derived from absence of
default" on `RequestParam` (declared in `lihil.interface.ParamBase`, which
is not among the provided sources; `src/params.py` consumes it). -/
def requiredOf (default : Option Val) : Bool := default.isNone

/-- `PathParam` (`src/params.py` lines 256-272), after `__post_init__`. -/
structure PathParam where
  name : String
  alias_ : String
  type_ : PyTy
  decoder : String → Except DecodeErr Val
  default : Option Val

/-- `PathParam.__post_init__`: a non-required path param (one with a
present default) raises `NotSupportedError` eagerly. -/
def PathParam.make (name alias_ : String) (type_ : PyTy)
    (decoder : String → Except DecodeErr Val) (default : Option Val) :
    Except Err PathParam :=
  if !requiredOf default then
    .error (.notSupportedError "Path param with default value is not supported")
  else .ok ⟨name, alias_, type_, decoder, default⟩

/-- `PathParam.extract`: `params[self.alias]` under `try/except KeyError`,
then `validate`. -/
def PathParam.extract (p : PathParam) (params : List (String × String)) :
    Except ValidationProblem Val :=
  match dictGet params p.alias_ with
  | none => .error (.missingRequestParam ParamSource.path p.alias_)
  | some raw => validateWith p.decoder ParamSource.path p.name raw

/-- `QueryParam` (`src/params.py` lines 275-301); `HeaderParam` is the same
record with `source = header` (`src/params.py` line 304). -/
structure QueryParam where
  name : String
  alias_ : String
  /-- the `source` class variable: `query` for `QueryParam`, `header` for
  `HeaderParam` and `CookieParam`. -/
  source : ParamSource
  type_ : PyTy
  decoder : StrOrList → Except DecodeErr Val
  default : Option Val

/-- `QueryParam.__post_init__` line 283 overwrites `multivals` with
`is_nontextual_sequence(self.type_)`, so on every constructed instance the
attribute equals this value. -/
def QueryParam.multivals (p : QueryParam) : Bool :=
  isNontextualSequence false p.type_

/-- The wire multi-dicts `QueryParams` and `Headers` of the vendor layer
(`starlette.datastructures`), the two argument shapes of
`QueryParam.extract`. `Headers.get` returns the first matching entry;
`QueryParams` is dict-backed, so `get` returns the last. `getlist` returns
every match in order for both. -/
inductive WireDict where
  | headers : List (String × String) → WireDict
  | queryParams : List (String × String) → WireDict

def WireDict.getlist : WireDict → String → List String
  | .headers l, k => (l.filter (fun e => e.1 == k)).map (fun e => e.2)
  | .queryParams l, k => (l.filter (fun e => e.1 == k)).map (fun e => e.2)

def WireDict.get : WireDict → String → Option String
  | .headers l, k => (l.find? (fun e => e.1 == k)).map (fun e => e.2)
  | .queryParams l, k =>
      ((l.filter (fun e => e.1 == k)).getLast?).map (fun e => e.2)

/-- `QueryParam.extract` (`src/params.py` lines 285-301): in multivals mode
read *all* occurrences of the wire key (an empty result list is falsy,
hence `MISSING`), otherwise `get` the single value; a present raw value is
validated; a missing one substitutes the default — deep-copied in
multivals mode — or reports `MissingRequestParam` when there is none. -/
def QueryParam.extract (p : QueryParam) (queries : WireDict) :
    Except ValidationProblem Val :=
  let isMultivals := p.multivals
  let val : Option StrOrList :=
    if isMultivals then
      match queries.getlist p.alias_ with
      | [] => none
      | l => some (.l l)
    else (queries.get p.alias_).map .s
  match val with
  | some raw => validateWith p.decoder p.source p.name raw
  | none =>
      match p.default with
      | none => .error (.missingRequestParam p.source p.alias_)
      | some default =>
          if isMultivals then .ok (deepcopy default) else .ok default

/-- An entry of the signature's `header_params` map: a `HeaderParam`, or a
`CookieParam` when `cookie_name` is present (`src/params.py` lines
304-310). -/
structure HeaderEntry where
  param : QueryParam
  cookie_name : Option String

/-- `FormData` of the vendor layer: the parsed multipart field mapping. -/
structure FormData where
  entries : List (String × String)
deriving DecidableEq, Repr

/-- A body decoder's input: Python `bytes | FormData` (raw byte strings are
embedded as `String`). -/
inductive BodyVal where
  | bytes : String → BodyVal
  | form : FormData → BodyVal
deriving DecidableEq, Repr

/-- `len(body)` for either body shape. -/
def BodyVal.len : BodyVal → Nat
  | .bytes s => s.length
  | .form fd => fd.entries.length

/-- `BodyParam` (`src/params.py` lines 316-332). -/
structure BodyParam where
  name : String
  alias_ : String
  content_type : String
  decoder : BodyVal → Except DecodeErr Val
  default : Option Val

/-- `BodyParam.extract`: a body different from `b""` is validated;
otherwise the default is substituted, or `MissingRequestParam` reported. -/
def BodyParam.extract (p : BodyParam) (body : BodyVal) :
    Except ValidationProblem Val :=
  match body with
  | .bytes "" =>
      match p.default with
      | none => .error (.missingRequestParam ParamSource.body p.alias_)
      | some default => .ok default
  | _ => validateWith p.decoder ParamSource.body p.name body

/-- `FormParam.extract` (`src/params.py` lines 339-348): dispatch on
`len(body) == 0` instead of the `b""` comparison. -/
def BodyParam.extractForm (p : BodyParam) (body : BodyVal) :
    Except ValidationProblem Val :=
  if body.len == 0 then
    match p.default with
    | some default => .ok default
    | none => .error (.missingRequestParam ParamSource.body p.alias_)
  else validateWith p.decoder ParamSource.body p.name body

/-- `FormMeta` (`src/params.py` lines 57-60). -/
structure FormMeta where
  max_files : Nat
  max_fields : Nat
  max_part_size : Nat
deriving DecidableEq, Repr

/-- Whether a body entry is a `BodyParam` or a `FormParam`, choosing the
`extract` override that dynamic dispatch would pick. -/
inductive BodyKind where
  | plain | formP
deriving DecidableEq, Repr

structure BodyEntry where
  param : BodyParam
  kind : BodyKind

def BodyEntry.extract (b : BodyEntry) (body : BodyVal) :
    Except ValidationProblem Val :=
  match b.kind with
  | .plain => b.param.extract body
  | .formP => b.param.extractForm body

/-- `PluginParam` types, classified the way the injector's `issubclass`
chain does. -/
inductive PluginKind where
  | requestCls | resolverCls | websocketCls | notAType | otherCls
deriving DecidableEq, Repr

/-- A member of the `params` map of `EndpointParams`
(`RequestParam = PathParam | QueryParam | HeaderParam | CookieParam`). -/
inductive RequestParamU where
  | path : PathParam → RequestParamU
  | query : QueryParam → RequestParamU
  | headerOrCookie : HeaderEntry → RequestParamU

/-- `EndpointParams` (`src/params.py` lines 359-387). -/
structure EndpointParams where
  params : List (String × RequestParamU)
  bodies : List (String × BodyEntry)
  nodes : List (String × String)
  plugins : List (String × PluginKind)

/-- `EndpointParams.get_body` (`src/params.py` lines 377-387): `None` for no
body param, the single registered pair for exactly one, and
`NotSupportedError` for two or more. -/
def EndpointParams.get_body (ep : EndpointParams) :
    Except Err (Option (String × BodyEntry)) :=
  match ep.bodies with
  | [] => .ok none
  | [b] => .ok (some b)
  | _ => .error (.notSupportedError "Endpoint with multiple body params is not supported")

/-!
## Return parser (`src/returns.py`)

Python's `annotation` attribute is embedded as the field `annot`.
-/

/-- `is_status` (`src/status.py` lines 209-212) holds exactly of the status
type aliases; `code`/`get_status_code` reads the numeric code. They are
embedded through the dedicated `PyMeta.status` constructor. -/
def isStatusMeta : PyMeta → Bool
  | .status _ => true
  | _ => false

/-- `lihil.constant.status.code`; callers guard with `isStatusMeta`. -/
def getStatusCode : PyMeta → Nat
  | .status n => n
  | _ => 0

/-- The `"__LIHIL_RESPONSE_MARK"` prefix of `src/marks.py`. -/
def respMarkPre : String := "__LIHIL_RESPONSE_MARK_"

/-- `extract_resp_type` (`src/marks.py` lines 18-27): a string metadata of
the form `__LIHIL_RESPONSE_MARK_<NAME>__` yields `name` lowercased,
anything else `None`. -/
def extractRespType : PyMeta → Option String
  | .strv s =>
      match stripLeading respMarkPre.data s.data with
      | some restChars =>
          if 2 ≤ restChars.length ∧
              restChars.drop (restChars.length - 2) = ['_', '_'] then
            some (String.mk ((restChars.take (restChars.length - 2)).map lowerChar))
          else none
      | none => none
  | _ => none

def isCustomEncoderMeta : PyMeta → Bool
  | .customEncoder _ => true
  | _ => false

/-- The encoders `encoder_factory` (`src/json.py`) can produce, plus a
`CustomEncoder.encode` taken from metadata. -/
inductive Encoder where
  | jsonFactory : Option PyTy → Encoder
  | textFactory : Encoder
  | custom : Nat → Encoder

/-- `is_empty_return` (`src/returns.py` lines 55-58): the Python `None`
object or `Literal[None]`; the `MISSING` sentinel (here `Option.none`) is
*not* empty. -/
def isEmptyReturn : Option PyTy → Bool
  | some .noneV => true
  | some (.generic "Literal" [.ty .noneV]) => true
  | _ => false

/-- `EndpointReturn` (`src/returns.py` lines 65-79): `type_` is
`MISSING | None | <type>`, embedded as `Option PyTy` with `none = MISSING`
and `some .noneV = None`. -/
structure EndpointReturn where
  type_ : Option PyTy
  status : Nat
  encoder : Encoder
  mark_type : String
  annot : Option PyTy
  content_type : Option String

/-- `EndpointReturn.__post_init__`: a status below 200 or in
`{204, 205, 304}` paired with a non-empty type raises
`StatusConflictError`. -/
def EndpointReturn.make (type_ : Option PyTy) (status : Nat)
    (encoder : Encoder) (mark_type : String) (annot : Option PyTy)
    (content_type : Option String) : Except Err EndpointReturn :=
  if status < 200 ∨ status = 204 ∨ status = 205 ∨ status = 304 then
    if !isEmptyReturn type_ then .error (.statusConflictError status type_)
    else .ok ⟨type_, status, encoder, mark_type, annot, content_type⟩
  else .ok ⟨type_, status, encoder, mark_type, annot, content_type⟩

/-- `DEFAULT_RETURN` (`src/returns.py` lines 82-84); its construction
passes `__post_init__` (status 200). -/
def DEFAULT_RETURN : EndpointReturn :=
  ⟨none, 200, .jsonFactory none, "json", none, some "application/json"⟩

/-- The running state of `parse_return_pro`'s metadata loop. -/
structure RetScan where
  encoder : Option Encoder
  status : Nat
  mark_type : String
  content_type : Option String
  ret_type : PyTy

/-- One iteration of the `for idx, meta in enumerate(metas)` loop of
`parse_return_pro` (`src/returns.py` lines 102-116): a `CustomEncoder`
sets the encoder; a truthy response mark sets `mark_type` (clearing the
content type for `empty`, otherwise taking `metas[idx+1]` as content type
— `IndexError` when absent — and, for `stream`, `get_args(annotation)[0]`
as the item type); otherwise a status marker sets the status; anything
else is skipped. A non-string in the content-type slot is reported here as
the `TypeError`-class failure the source would hit at
`content_type.split`. -/
def retScanStep (metas : List PyMeta) (annot : Option PyTy) (meta : PyMeta)
    (idx : Nat) (st : RetScan) : Except Err RetScan :=
  match meta with
  | .customEncoder e => .ok { st with encoder := some (.custom e) }
  | _ =>
      match extractRespType meta with
      | some respType =>
          if respType = "" then
            -- falsy walrus result: fall through to the status check
            .ok (if isStatusMeta meta then
                  { st with status := getStatusCode meta } else st)
          else if respType = "empty" then
            .ok { st with mark_type := respType, content_type := none }
          else
            match
              (if respType = "stream" then
                match annot with
                | some a =>
                    match pyGetArgsM a with
                    | .ty t :: _ => Except.ok t
                    | _ :: _ => Except.error Err.typeError
                    | [] => Except.error Err.indexError
                | none => Except.error Err.typeError
              else Except.ok st.ret_type) with
            | .error e => .error e
            | .ok rt =>
                match metas.get? (idx + 1) with
                | some (.strv ct) =>
                    .ok { st with mark_type := respType,
                                  content_type := some ct, ret_type := rt }
                | some _ => .error .typeError
                | none => .error .indexError
      | none =>
          .ok (if isStatusMeta meta then
                { st with status := getStatusCode meta } else st)

/-- The enumerated loop itself, threading the running state through
`retScanStep`. -/
def retScanLoop (metas : List PyMeta) (annot : Option PyTy) :
    List PyMeta → Nat → RetScan → Except Err RetScan
  | [], _, st => .ok st
  | meta :: rest, idx, st =>
      match retScanStep metas annot meta idx st with
      | .ok st' => retScanLoop metas annot rest (idx + 1) st'
      | .error e => .error e

/-- `parse_return_pro` (`src/returns.py` lines 87-135). -/
def parseReturnPro (ret_type : PyTy) (annot : Option PyTy)
    (metas : Option (List PyMeta)) : Except Err EndpointReturn :=
  match metas with
  | none =>
      EndpointReturn.make (some ret_type) 200 (.jsonFactory (some ret_type))
        "json" annot (some "application/json")
  | some ms =>
      match retScanLoop ms annot ms 0
          ⟨none, 200, "json", some "application/json", ret_type⟩ with
      | .error e => .error e
      | .ok st =>
          -- content, _ = content_type.split("/") if content_type else (None, None)
          match
            (match st.content_type with
             | none => Except.ok (none : Option String)
             | some ct =>
                match splitListOn '/' ct.data with
                | [c, _] => Except.ok (some (String.mk c))
                | _ => Except.error Err.valueError) with
          | .error e => .error e
          | .ok content =>
              if content = some "text" then
                EndpointReturn.make (some (.base "bytes")) st.status
                  (st.encoder.getD .textFactory) st.mark_type annot st.content_type
              else
                EndpointReturn.make (some st.ret_type) st.status
                  (st.encoder.getD (.jsonFactory (some st.ret_type))) st.mark_type
                  annot st.content_type

/-- `get_args` on a union annotation: its member list. -/
def unionMembers : PyTy → List PyTy
  | .unionType as' => as'
  | .typingUnion as' => as'
  | _ => []

/-- `temp_union = [get_origin_pro(utype) for utype in unions]`. -/
def tempUnionLoop (fuel : Nat) :
    List PyTy → Except Err (List (PyTy × Option (List PyMeta)))
  | [] => .ok []
  | u :: us =>
      match getOriginPro fuel u none none with
      | .error e => .error e
      | .ok r =>
          match tempUnionLoop fuel us with
          | .error e => .error e
          | .ok rs => .ok (r :: rs)

/-- The `resp_cnt` loop of `parse_returns` (`src/returns.py` lines
152-158): count the members whose truthy resolved metadata contains a
status marker. -/
def respCount (temp : List (PyTy × Option (List PyMeta))) : Nat :=
  temp.foldl
    (fun cnt e =>
      match e.2 with
      | some (m :: ms) => if (m :: ms).any isStatusMeta then cnt + 1 else cnt
      | _ => cnt) 0

/-- `resps = [parse_return_pro(uorigin, uorigin, umeta) for ...]`. -/
def respsLoop : List (PyTy × Option (List PyMeta)) → Except Err (List EndpointReturn)
  | [] => .ok []
  | (uorigin, umeta) :: rest =>
      match parseReturnPro uorigin (some uorigin) umeta with
      | .error e => .error e
      | .ok r =>
          match respsLoop rest with
          | .error e => .error e
          | .ok rs => .ok (r :: rs)

/-- `{resp.status: resp for resp in resps}`: a dict keyed by status, later
members overwriting earlier ones with the same status. -/
def buildStatusMap (resps : List EndpointReturn) : List (Nat × EndpointReturn) :=
  resps.foldl (fun acc r => dictSet acc r.status r) []

/-- `parse_returns` (`src/returns.py` lines 138-173). The input is the
return annotation, `none` when absent (`not is_annotated`). -/
def parseReturns (fuel : Nat) (annt : Option PyTy) :
    Except Err (List (Nat × EndpointReturn)) :=
  match annt with
  | none => .ok [(DEFAULT_RETURN.status, DEFAULT_RETURN)]
  | some annt =>
    if !isUnionType annt then
      match getOriginPro fuel annt none none with
      | .error e => .error e
      | .ok (rtType, metas) =>
          match parseReturnPro rtType (some annt) metas with
          | .error e => .error e
          | .ok res => .ok [(res.status, res)]
    else
      let unions := unionMembers annt
      match tempUnionLoop fuel unions with
      | .error e => .error e
      | .ok temp =>
          let respCnt := respCount temp
          if respCnt ≠ 0 ∧ respCnt ≠ unions.length then
            .error (.notSupportedError "union size and status dismatched")
          else if respCnt = 0 then
            match getOriginPro fuel annt none none with
            | .error e => .error e
            | .ok (uOrigin, uMeta) =>
                match parseReturnPro uOrigin (some annt) uMeta with
                | .error e => .error e
                | .ok resp => .ok [(resp.status, resp)]
          else
            match respsLoop temp with
            | .error e => .error e
            | .ok resps => .ok (buildStatusMap resps)

/-!
## Request injector (`src/signature.py`) and endpoint call (`src/routing.py`)
-/

/-- A cleanup callback registered in a `ParseResult` (the only registration
site in the source is `parsed.callbacks.append(body.close)` after a
successful multipart parse, `src/signature.py` line 183). -/
inductive Callback where
  | formClose : FormData → Callback
deriving DecidableEq, Repr

/-- `ParseResult` (`src/signature.py` lines 32-36). -/
structure ParseResult where
  params : List (String × Val)
  errors : List ValidationProblem
  callbacks : List Callback

/-- The injector's per-signature state (`Injector.__init__`,
`src/signature.py` lines 90-99): the items of the corresponding
`EndpointSignature` maps. -/
structure Injector where
  header_params : List (String × HeaderEntry)
  path_params : List (String × PathParam)
  query_params : List (String × QueryParam)
  body_param : Option (String × BodyEntry)
  form_meta : Option FormMeta
  state_params : List (String × PluginKind)
  deps : List (String × String)
  transitive_params : List String

/-- The connection pieces `_validate_conn` reads: `conn.headers`,
`conn.path_params`, `conn.query_params`. Header keys are stored
normalized to lower case, as the vendor `Headers` does. -/
structure Conn where
  headers : List (String × String)
  path_params : List (String × String)
  query_params : List (String × String)

/-- A `Request`: the connection plus the body transport — `req.body()`
yields the raw bytes and `req.form(limits)` either the parsed `FormData`
or a `MultiPartException` (modelled as the `Unit` error). -/
structure Request where
  conn : Conn
  body : String
  formResult : FormMeta → Except Unit FormData

/-- `Headers.__getitem__` (vendor): the first matching entry, `KeyError`
when absent; used for `headers["cookie"]`. -/
def headersGetItem (headers : List (String × String)) (k : String) : Option String :=
  (headers.find? (fun e => e.1 == k)).map (fun e => e.2)

/-- Cookie-value unquoting of the vendor `cookie_parser`: surrounding
double quotes are stripped. -/
def unquoteCookie (s : String) : String :=
  match s.data with
  | '"' :: rest =>
      if rest ≠ [] ∧ rest.getLast? = some '"' then String.mk rest.dropLast
      else s
  | _ => s

/-- The vendor `cookie_parser` (`starlette.requests`): split on `;`, split
each chunk on the first `=` (a chunk without `=` contributes an empty
key), strip whitespace, skip fully empty chunks, store into a dict with
later entries overriding. -/
def cookieParser (cookieString : String) : List (String × String) :=
  (splitListOn ';' cookieString.data).foldl
    (fun acc chunk =>
      let kv :=
        match splitFirstOn '=' chunk with
        | some (k, v) => (k, v)
        | none => ([], chunk)
      let key := String.mk (trimChars kv.1)
      let val := String.mk (trimChars kv.2)
      if key ≠ "" ∨ val ≠ "" then dictSet acc key (unquoteCookie val) else acc)
    []

/-- The header/cookie loop of `_validate_conn` (`src/signature.py` lines
105-121). A param whose alias is `"cookie"` takes the cookie branch:
parse `headers["cookie"]` once into a cached mapping (`KeyError` when the
header is absent), then index it by the param's `cookie_name` (`KeyError`
when that cookie is absent; a plain `HeaderParam` without `cookie_name`
would hit `AttributeError`) and `validate` the cookie string. Any other
param is `extract`ed from the headers. Successes fill `params`, problems
append to `verrors`. -/
def headerLoop (headers : List (String × String)) :
    List (String × HeaderEntry) → Option (List (String × String)) →
    List (String × Val) → List ValidationProblem →
    Except Err (List (String × Val) × List ValidationProblem)
  | [], _, params, verrors => .ok (params, verrors)
  | (name, entry) :: rest, cookieCache, params, verrors =>
      if entry.param.alias_ == "cookie" then
        match
          (match cookieCache with
           | some cp => Except.ok cp
           | none =>
              match headersGetItem headers "cookie" with
              | none => Except.error (Err.keyError "cookie")
              | some hv => Except.ok (cookieParser hv)) with
        | .error e => .error e
        | .ok cp =>
            match entry.cookie_name with
            | none => .error .attributeError
            | some cn =>
                match dictGet cp cn with
                | none => .error (.keyError cn)
                | some cookie =>
                    match validateWith entry.param.decoder entry.param.source
                        entry.param.name (.s cookie) with
                    | .ok v =>
                        headerLoop headers rest (some cp) (dictSet params name v) verrors
                    | .error err =>
                        headerLoop headers rest (some cp) params (verrors ++ [err])
      else
        match entry.param.extract (.headers headers) with
        | .ok v => headerLoop headers rest cookieCache (dictSet params name v) verrors
        | .error err => headerLoop headers rest cookieCache params (verrors ++ [err])

/-- The path loop of `_validate_conn` (`src/signature.py` lines 123-130). -/
def pathLoop (paths : List (String × String)) :
    List (String × PathParam) → List (String × Val) → List ValidationProblem →
    List (String × Val) × List ValidationProblem
  | [], params, verrors => (params, verrors)
  | (name, param) :: rest, params, verrors =>
      match param.extract paths with
      | .ok v => pathLoop paths rest (dictSet params name v) verrors
      | .error err => pathLoop paths rest params (verrors ++ [err])

/-- The query loop of `_validate_conn` (`src/signature.py` lines 132-139). -/
def queryLoop (queries : List (String × String)) :
    List (String × QueryParam) → List (String × Val) → List ValidationProblem →
    List (String × Val) × List ValidationProblem
  | [], params, verrors => (params, verrors)
  | (name, param) :: rest, params, verrors =>
      match param.extract (.queryParams queries) with
      | .ok v => queryLoop queries rest (dictSet params name v) verrors
      | .error err => queryLoop queries rest params (verrors ++ [err])

/-- `Injector._validate_conn` (`src/signature.py` lines 101-142): headers
and cookies, then path params, then query params; the fresh `ParseResult`
carries the collected params and problems and no callbacks. -/
def Injector.validateConn (inj : Injector) (conn : Conn) : Except Err ParseResult :=
  match headerLoop conn.headers inj.header_params none [] [] with
  | .error e => .error e
  | .ok (params, verrors) =>
      let pres := pathLoop conn.path_params inj.path_params params verrors
      let qres := queryLoop conn.query_params inj.query_params pres.1 pres.2
      .ok ⟨qres.1, qres.2, []⟩

/-- The plugin loop of `validate_request` (`src/signature.py` lines
196-203): a `Request`-typed plugin receives the request object, a
`Resolver`-typed one the resolver; non-type and other plugin annotations
are skipped. -/
def stateLoop : List (String × PluginKind) → List (String × Val) →
    List (String × Val)
  | [], params => params
  | (name, k) :: rest, params =>
      match k with
      | .requestCls => stateLoop rest (dictSet params name Val.requestObj)
      | .resolverCls => stateLoop rest (dictSet params name Val.resolverObj)
      | _ => stateLoop rest params

/-- The dependency loop (`src/signature.py` lines 205-206):
`params[name] = await resolver.aresolve(dep.dependent, **params)`, with the
external resolver passed in as a function. -/
def depsLoop (aresolve : String → List (String × Val) → Val) :
    List (String × String) → List (String × Val) → List (String × Val)
  | [], params => params
  | (name, dep) :: rest, params =>
      depsLoop aresolve rest (dictSet params name (aresolve dep params))

/-- `for p in self.transitive_params: params.pop(p)` (`src/signature.py`
lines 208-209); `dict.pop` raises `KeyError` on a missing key. -/
def popLoop : List String → List (String × Val) →
    Except Err (List (String × Val))
  | [], params => .ok params
  | p :: rest, params =>
      match dictPop params p with
      | none => .error (.keyError p)
      | some params' => popLoop rest params'

/-- `Injector.validate_request` (`src/signature.py` lines 165-211):
`_validate_conn`, then the body param — under `form_meta` the multipart
parse either appends an `InvalidFormError` and falls back to `b""`, or
registers the form's `close` callback; the body is then `extract`ed —
then the aggregated raise when any problem was collected, then plugin
injection, dependency resolution and stripping of transitive params. -/
def Injector.validateRequest (inj : Injector) (req : Request)
    (aresolve : String → List (String × Val) → Val) : Except Err ParseResult :=
  match inj.validateConn req.conn with
  | .error e => .error e
  | .ok parsed =>
      let step : List (String × Val) × List ValidationProblem × List Callback :=
        match inj.body_param with
        | none => (parsed.params, parsed.errors, parsed.callbacks)
        | some (name, param) =>
            let bodyStep : BodyVal × List ValidationProblem × List Callback :=
              match inj.form_meta with
              | some fm =>
                  match req.formResult fm with
                  | .error _ =>
                      (BodyVal.bytes "",
                       parsed.errors ++ [.invalidFormError ParamSource.body name],
                       parsed.callbacks)
                  | .ok fd =>
                      (BodyVal.form fd, parsed.errors,
                       parsed.callbacks ++ [.formClose fd])
              | none => (BodyVal.bytes req.body, parsed.errors, parsed.callbacks)
            match param.extract bodyStep.1 with
            | .ok v => (dictSet parsed.params name v, bodyStep.2.1, bodyStep.2.2)
            | .error err => (parsed.params, bodyStep.2.1 ++ [err], bodyStep.2.2)
      if step.2.1.isEmpty then
        let params := stateLoop inj.state_params step.1
        let params := depsLoop aresolve inj.deps params
        match popLoop inj.transitive_params params with
        | .error e => .error e
        | .ok params => .ok ⟨params, step.2.1, step.2.2⟩
      else .error (.invalidRequestErrors step.2.1)

/-- The cleanup callbacks `validate_request` registers in its
`ParseResult` before any aggregated raise (`src/signature.py` lines
169-183): the form-close callback of a successful multipart parse. -/
def registeredFormCallbacks (inj : Injector) (req : Request) : List Callback :=
  match inj.body_param with
  | none => []
  | some _ =>
      match inj.form_meta with
      | none => []
      | some fm =>
          match req.formResult fm with
          | .ok fd => [.formClose fd]
          | .error _ => []

/-- The observable outcome of `Endpoint.make_call`: the handler's raw
return, a `Response` produced by a registered error solver, or a
re-raised exception. -/
inductive CallOutcome where
  | value : Val → CallOutcome
  | response : Nat → CallOutcome
  | raised : Err → CallOutcome

/-- `Endpoint.make_call` paired with the callbacks its `finally` block
actually awaited. -/
structure MakeCallResult where
  outcome : CallOutcome
  ran_callbacks : List Callback

/-- `Endpoint.make_call` (`src/routing.py` lines 213-229): `callbacks`
starts as `None` and is assigned only from a successfully returned
`ParseResult`; when `validate_request` raises, the `finally` block
therefore runs nothing. When it returns, the handler runs and the parsed
callbacks run whether the handler returns or raises (a registered solver
turning the exception into a `Response`, an unsolved one re-raising). -/
def makeCall (inj : Injector) (req : Request)
    (aresolve : String → List (String × Val) → Val)
    (func : List (String × Val) → Except Err Val)
    (solver : Err → Option Nat) : MakeCallResult :=
  match inj.validateRequest req aresolve with
  | .error exc =>
      { outcome := match solver exc with
          | some r => .response r
          | none => .raised exc,
        ran_callbacks := [] }
  | .ok parsed =>
      match func parsed.params with
      | .ok v => { outcome := .value v, ran_callbacks := parsed.callbacks }
      | .error exc =>
          { outcome := match solver exc with
              | some r => .response r
              | none => .raised exc,
            ran_callbacks := parsed.callbacks }

/-!
## Concrete decoders

The endpoint parser that builds per-type decoders
(`lihil.signature.parser`) is not among the provided sources; these
decoders are modelled from the spec's decoder-registry contract
(`get_decoder(type) -> (bytes|str|list[str]) -> T`).
-/

/-- Modelled from the spec: the textual decoder built for an `int`-typed
path param (decode the decimal string, a malformed one raising the
validation error `msgspec.convert` would raise). -/
def decodeIntStr (raw : String) : Except DecodeErr Val :=
  match parseInt? raw.data with
  | some n => .ok (.vInt n)
  | none => .error (.validationError "Expected `int`")

/-- Modelled from the spec: the textual decoder built for an `int`-typed
query/header param. -/
def decodeIntText : StrOrList → Except DecodeErr Val
  | .s raw => decodeIntStr raw
  | .l _ => .error (.validationError "Expected `int`, got `array`")

/-- Modelled from the spec: the textual decoder built for a `str`-typed
param (identity on the wire string). -/
def decodeStrText : StrOrList → Except DecodeErr Val
  | .s raw => .ok (.vStr raw)
  | .l _ => .error (.validationError "Expected `str`, got `array`")

/-- Decode every string of a wire list as an `int`, in order. -/
def decodeIntItems : List String → Except DecodeErr (List Val)
  | [] => .ok []
  | raw :: rest =>
      match parseInt? raw.data with
      | none => .error (.validationError "Expected `int`")
      | some n =>
          match decodeIntItems rest with
          | .ok vs => .ok (.vInt n :: vs)
          | .error e => .error e

/-- Modelled from the spec: the multivals decoder built for a `list[int]`
query param (`msgspec.convert(getlist(...), list[int], strict=False)`). -/
def decodeIntListText : StrOrList → Except DecodeErr Val
  | .l raws =>
      match decodeIntItems raws with
      | .ok vs => .ok (.vList vs)
      | .error e => .error e
  | .s _ => .error (.validationError "Expected `array`")

/-- Modelled from the spec: the multivals decoder built for a
`tuple[int, ...]` query param. -/
def decodeIntTupleText : StrOrList → Except DecodeErr Val
  | .l raws =>
      match decodeIntItems raws with
      | .ok vs => .ok (.vTuple vs)
      | .error e => .error e
  | .s _ => .error (.validationError "Expected `array`")

/-!
## Concrete endpoint fixtures used by the scenario parts of the claims
-/

/-- The query param of the spec scenario `f(q: int = 42)`. -/
def qParam42 : QueryParam :=
  ⟨"q", "q", .query, .base "int", decodeIntText, some (.vInt 42)⟩

/-- An injector whose signature declares only `q: int = 42`. -/
def queryDefaultInjector : Injector :=
  ⟨[], [], [("q", qParam42)], none, none, [], [], []⟩

/-- A query param typed `list[int]` (multivals mode). -/
def nListParam : QueryParam :=
  ⟨"n", "n", .query, .generic "list" [.ty (.base "int")], decodeIntListText, none⟩

/-- A query param typed `tuple[int, ...]` (the second argument is the
`Ellipsis` object). -/
def nTupleParam : QueryParam :=
  ⟨"n", "n", .query, .generic "tuple" [.ty (.base "int"), .other 0],
    decodeIntTupleText, none⟩

/-- The problems a sequence of extractions reports: exactly one per failed
param, in declaration order. -/
def extractErrsWith {π : Type} (extract : π → Except ValidationProblem Val)
    (items : List (String × π)) : List ValidationProblem :=
  items.filterMap (fun x =>
    match extract x.2 with
    | .ok _ => none
    | .error e => some e)

/-- The param dict a sequence of extractions fills: one entry per
successful param. -/
def extractParamsWith {π : Type} (extract : π → Except ValidationProblem Val)
    (items : List (String × π)) (params : List (String × Val)) :
    List (String × Val) :=
  items.foldl
    (fun ps x =>
      match extract x.2 with
      | .ok v => dictSet ps x.1 v
      | .error _ => ps) params

/-- The per-entry outcome of one iteration of the header/cookie loop of
`_validate_conn` (`src/signature.py` lines 109-121): the outer `Except Err`
is an escaping exception of the cookie branch (`KeyError` for a missing
`cookie` header or missing cookie name, `AttributeError` for a
`cookie`-aliased param without `cookie_name`), the inner value the
`(value, problem)` result every non-escaping extraction produces. The
cookie mapping is recomputed from the header value, which is what the
loop's once-only cache also holds. -/
def headerEntryStep (headers : List (String × String)) (e : HeaderEntry) :
    Except Err (Except ValidationProblem Val) :=
  if e.param.alias_ == "cookie" then
    match headersGetItem headers "cookie" with
    | none => .error (.keyError "cookie")
    | some hv =>
        match e.cookie_name with
        | none => .error .attributeError
        | some cn =>
            match dictGet (cookieParser hv) cn with
            | none => .error (.keyError cn)
            | some cookie =>
                .ok (validateWith e.param.decoder e.param.source e.param.name
                  (.s cookie))
  else .ok (e.param.extract (.headers headers))

/-- The problems the header/cookie sweep reports when no entry escapes:
exactly one per failed entry, in declaration order. -/
def headerStepErrs (headers : List (String × String)) :
    List (String × HeaderEntry) → List ValidationProblem
  | [] => []
  | x :: rest =>
      (match headerEntryStep headers x.2 with
       | .ok (.error e) => [e]
       | _ => []) ++ headerStepErrs headers rest

/-- The param dict the header/cookie sweep fills when no entry escapes:
one entry per successful extraction. -/
def headerStepParams (headers : List (String × String)) :
    List (String × HeaderEntry) → List (String × Val) → List (String × Val)
  | [], params => params
  | x :: rest, params =>
      headerStepParams headers rest
        (match headerEntryStep headers x.2 with
         | .ok (.ok v) => dictSet params x.1 v
         | _ => params)

/-- A required `HeaderParam` with wire alias `x-token`. -/
def xTokenHeaderEntry : HeaderEntry :=
  ⟨⟨"x_token", "x-token", .header, .base "str", decodeStrText, none⟩, none⟩

/-- A required `int`-typed query param named `n`. -/
def nIntQueryParam : QueryParam :=
  ⟨"n", "n", .query, .base "int", decodeIntText, none⟩

/-- An injector declaring a required header `x-token` and a required query
int `n`. -/
def twoInvalidInjector : Injector :=
  ⟨[("x_token", xTokenHeaderEntry)], [], [("n", nIntQueryParam)], none, none,
    [], [], []⟩

/-- A request missing the `x-token` header and carrying the malformed
query occurrence `n=abc`. -/
def twoInvalidRequest : Request :=
  ⟨⟨[], [], [("n", "abc")]⟩, "", fun _ => .error ()⟩

/-- A `CookieParam` for the cookie `session_id` (a `CookieParam`'s alias
is `"cookie"`, `src/params.py` lines 308-310). -/
def sessionCookieEntry : HeaderEntry :=
  ⟨⟨"session_id", "cookie", .header, .base "str", decodeStrText, none⟩,
    some "session_id"⟩

/-- An injector whose signature declares only the `session_id` cookie. -/
def cookieInjector : Injector :=
  ⟨[("session_id", sessionCookieEntry)], [], [], none, none, [], [], []⟩

/-- A request with no headers at all (in particular no `cookie` header). -/
def bareRequest : Request :=
  ⟨⟨[], [], []⟩, "", fun _ => .error ()⟩

/-- An injector declaring the `session_id` cookie *and* a required query
int `n`: two parameters that can be simultaneously invalid. -/
def cookiePlusQueryInjector : Injector :=
  ⟨[("session_id", sessionCookieEntry)], [], [("n", nIntQueryParam)], none,
    none, [], [], []⟩

/-- An `int`-typed `CookieParam` for the cookie `session_id`. -/
def sessionIntCookieEntry : HeaderEntry :=
  ⟨⟨"session_id", "cookie", .header, .base "int", decodeIntText, none⟩,
    some "session_id"⟩

/-- An injector declaring the `int`-typed `session_id` cookie and a
required query int `n`. -/
def cookieDecodePlusQueryInjector : Injector :=
  ⟨[("session_id", sessionIntCookieEntry)], [], [("n", nIntQueryParam)],
    none, none, [], [], []⟩

/-- A request whose cookie header carries the malformed cookie
`session_id=abc` and no query string. -/
def cookieAbcRequest : Request :=
  ⟨⟨[("cookie", "session_id=abc")], [], []⟩, "", fun _ => .error ()⟩

/-- Modelled from the spec: a form decoder accepting any parsed form. -/
def decodeFormOk : BodyVal → Except DecodeErr Val
  | .form _ => .ok .vNone
  | .bytes _ => .error .decodeError

/-- A parsed multipart form. -/
def sampleFormData : FormData := ⟨[("file", "data")]⟩

/-- A required multipart body param. -/
def formBodyEntry : BodyEntry :=
  ⟨⟨"form", "form", "multipart/form-data", decodeFormOk, none⟩, .formP⟩

/-- An injector declaring a required query int `n` *and* a multipart body:
the form parse succeeds and registers its close callback, while the
missing `n` makes validation fail. -/
def formPlusQueryInjector : Injector :=
  ⟨[], [], [("n", nIntQueryParam)], some ("form", formBodyEntry),
    some ⟨1000, 1000, 1048576⟩, [], [], []⟩

/-- An injector declaring only the multipart body: validation succeeds and
the parse result carries the form-close callback. -/
def formOnlyInjector : Injector :=
  ⟨[], [], [], some ("form", formBodyEntry), some ⟨1000, 1000, 1048576⟩,
    [], [], []⟩

/-- A request whose multipart parse succeeds with `sampleFormData` and
which carries no query string. -/
def formOkRequest : Request :=
  ⟨⟨[], [], []⟩, "", fun _ => .ok sampleFormData⟩

/-- An `EndpointParams` with two registered body params. -/
def twoBodiesEndpointParams : EndpointParams :=
  ⟨[], [("b1", formBodyEntry), ("b2", formBodyEntry)], [], []⟩

/-- `Annotated[int, OK] | Annotated[str, OK]`: every member carries an
explicit status marker, but the two statuses coincide. -/
def unionDupStatus : PyTy :=
  .unionType [.annotated (.base "int") [.status 200],
              .annotated (.base "str") [.status 200]]

/-- `Annotated[int, CREATED] | str`: exactly one of the two members
carries a status marker. -/
def unionPartialStatus : PyTy :=
  .unionType [.annotated (.base "int") [.status 201], .base "str"]

/-!
## Claims
-/

/-- The flattening loop keeps a non-`Annotated` metadata item unchanged. -/
theorem flattenMetas_cons_nonann (m : PyMeta) (h : isAnnotatedMeta m = false)
    (rest : List PyMeta) : flattenMetas (m :: rest) = m :: flattenMetas rest := by
  cases m with
  | ty t => cases t <;> first | rfl | simp [isAnnotatedMeta] at h
  | status n => rfl
  | customEncoder n => rfl
  | strv s => rfl
  | other n => rfl

/-- C2: resolving `Annotated[Annotated[X, m1], m2]` yields `(X, [m1, m2])`
— inner metadata before outer — and the very same pair as resolving the
pre-flattened `Annotated[X, m1, m2]`, also when the inner `Annotated` is
reached through type-alias indirection. -/
theorem c2_nested_annotated_order (s aliasName : String) (m1 m2 : PyMeta)
    (h1 : isAnnotatedMeta m1 = false) (h2 : isAnnotatedMeta m2 = false)
    (fuel : Nat) (hf : 4 ≤ fuel) :
    getOriginPro fuel (.annotated (.annotated (.base s) [m1]) [m2]) none none =
        .ok (.base s, some [m1, m2])
    ∧ getOriginPro fuel (.annotated (.base s) [m1, m2]) none none =
        .ok (.base s, some [m1, m2])
    ∧ getOriginPro fuel
        (.annotated (.alias aliasName (.annotated (.base s) [m1])) [m2]) none none =
        .ok (.base s, some [m1, m2]) := by
  obtain ⟨k, rfl⟩ : ∃ k, fuel = k + 4 := ⟨fuel - 4, by omega⟩
  refine ⟨?_, ?_, ?_⟩ <;>
    simp [getOriginPro, deannotate, tyHasOrigin,
      flattenMetas_cons_nonann m1 h1, flattenMetas_cons_nonann m2 h2,
      flattenMetas]

/-- Witness for C2 at concrete metadata values and fuel. -/
theorem c2_nested_annotated_order_witness :
    getOriginPro 10
        (.annotated (.annotated (.base "X") [.strv "m1"]) [.strv "m2"]) none none =
        .ok (.base "X", some [.strv "m1", .strv "m2"])
    ∧ getOriginPro 10 (.annotated (.base "X") [.strv "m1", .strv "m2"]) none none =
        .ok (.base "X", some [.strv "m1", .strv "m2"])
    ∧ getOriginPro 10
        (.annotated (.alias "A" (.annotated (.base "X") [.strv "m1"]))
          [.strv "m2"]) none none =
        .ok (.base "X", some [.strv "m1", .strv "m2"]) :=
  c2_nested_annotated_order "X" "A" (.strv "m1") (.strv "m2") rfl rfl 10
    (by omega)

/-- When the connection has no `cookie` header, the first declared cookie
param makes the header loop raise `KeyError("cookie")`. -/
theorem headerLoop_keyError_of_cookie_header_missing
    (headers : List (String × String))
    (hh : headersGetItem headers "cookie" = none) :
    ∀ (items : List (String × HeaderEntry)) (params : List (String × Val))
      (verrors : List ValidationProblem),
      (∃ x ∈ items, x.2.param.alias_ = "cookie") →
      headerLoop headers items none params verrors = .error (.keyError "cookie") := by
  intro items
  induction items with
  | nil =>
      intro params verrors hex
      obtain ⟨x, hx, _⟩ := hex
      simp at hx
  | cons hd tl ih =>
      intro params verrors hex
      obtain ⟨x, hx, hal⟩ := hex
      obtain ⟨name, entry⟩ := hd
      cases hc : entry.param.alias_ == "cookie" with
      | true => simp [headerLoop, hc, hh]
      | false =>
          have htl : ∃ x ∈ tl, x.2.param.alias_ = "cookie" := by
            rcases List.mem_cons.mp hx with h1 | h2
            · exfalso
              rw [h1] at hal
              have heq : entry.param.alias_ = "cookie" := by simpa using hal
              simp [heq] at hc
            · exact ⟨x, h2, hal⟩
          cases hres : entry.param.extract (.headers headers) with
          | ok v => simpa [headerLoop, hc, hres] using ih _ _ htl
          | error err => simpa [headerLoop, hc, hres] using ih _ _ htl

/-- With no cookie-aliased param, the header loop never raises. -/
theorem headerLoop_total_of_no_cookie (headers : List (String × String)) :
    ∀ (items : List (String × HeaderEntry)),
      (∀ x ∈ items, x.2.param.alias_ ≠ "cookie") →
      ∀ params verrors, ∃ res, headerLoop headers items none params verrors = .ok res := by
  intro items
  induction items with
  | nil => intro _ params verrors; exact ⟨(params, verrors), rfl⟩
  | cons hd tl ih =>
      intro hno params verrors
      obtain ⟨name, entry⟩ := hd
      have hc : (entry.param.alias_ == "cookie") = false := by
        have := hno (name, entry) (List.mem_cons_self _ _)
        simpa using this
      have htl : ∀ x ∈ tl, x.2.param.alias_ ≠ "cookie" := fun x hx =>
        hno x (List.mem_cons_of_mem _ hx)
      cases hres : entry.param.extract (.headers headers) with
      | ok v =>
          obtain ⟨res, hr⟩ := ih htl (dictSet params name v) verrors
          exact ⟨res, by simpa [headerLoop, hc, hres] using hr⟩
      | error err =>
          obtain ⟨res, hr⟩ := ih htl params (verrors ++ [err])
          exact ⟨res, by simpa [headerLoop, hc, hres] using hr⟩

/-- A `_validate_conn` exception propagates out of `validate_request`
unchanged (`src/signature.py` line 166). -/
theorem validateRequest_propagates_conn_error (inj : Injector) (req : Request)
    (aresolve : String → List (String × Val) → Val) (e : Err)
    (h : inj.validateConn req.conn = .error e) :
    inj.validateRequest req aresolve = .error e := by
  unfold Injector.validateRequest
  rw [h]

/-- C10 (implicit): with at least one declared cookie param, a connection
whose headers contain no `cookie` entry makes `_validate_conn` (and hence
`validate_request`) raise an uncaught `KeyError` instead of recording a
`MissingRequestParam`; a parsed cookie mapping lacking the declared
`cookie_name` likewise raises `KeyError` with that name; extraction for
cookie-free header params, by contrast, is total. -/
theorem c10_cookie_lookup_keyerror :
    (∀ (inj : Injector) (conn : Conn),
      (∃ x ∈ inj.header_params, x.2.param.alias_ = "cookie") →
      headersGetItem conn.headers "cookie" = none →
      inj.validateConn conn = .error (.keyError "cookie"))
    ∧ (∀ (inj : Injector) (req : Request)
        (aresolve : String → List (String × Val) → Val) (e : Err),
        inj.validateConn req.conn = .error e →
        inj.validateRequest req aresolve = .error e)
    ∧ (∀ (inj : Injector) (conn : Conn),
        (∀ x ∈ inj.header_params, x.2.param.alias_ ≠ "cookie") →
        ∃ pr, inj.validateConn conn = .ok pr)
    ∧ cookieInjector.validateConn ⟨[("cookie", "foo=1")], [], []⟩ =
        .error (.keyError "session_id")
    ∧ cookieInjector.validateRequest bareRequest (fun _ _ => .vNone) =
        .error (.keyError "cookie") := by
  refine ⟨?_, ?_, ?_, ?_, ?_⟩
  · intro inj conn hex hh
    unfold Injector.validateConn
    rw [headerLoop_keyError_of_cookie_header_missing conn.headers hh
      inj.header_params [] [] hex]
  · exact validateRequest_propagates_conn_error
  · intro inj conn hno
    obtain ⟨res, hr⟩ := headerLoop_total_of_no_cookie conn.headers
      inj.header_params hno [] []
    exact ⟨_, by unfold Injector.validateConn; rw [hr]⟩
  · rfl
  · rfl

/-- Witness for C10 at a concrete input: the `session_id` cookie injector
against a connection with no headers raises `KeyError("cookie")`. -/
theorem c10_cookie_lookup_keyerror_witness :
    cookieInjector.validateConn ⟨[], [], []⟩ = .error (.keyError "cookie") :=
  (c10_cookie_lookup_keyerror).1 cookieInjector ⟨[], [], []⟩
    ⟨("session_id", sessionCookieEntry), by simp [cookieInjector], rfl⟩ rfl

/-- The query loop fills one param per success and appends one problem per
failure, in order. -/
theorem queryLoop_eq (queries : List (String × String)) :
    ∀ (items : List (String × QueryParam)) (params : List (String × Val))
      (verrors : List ValidationProblem),
      queryLoop queries items params verrors =
        (extractParamsWith (fun p => p.extract (.queryParams queries)) items params,
         verrors ++ extractErrsWith (fun p => p.extract (.queryParams queries)) items) := by
  intro items
  induction items with
  | nil => intro params verrors; simp [queryLoop, extractParamsWith, extractErrsWith]
  | cons hd tl ih =>
      intro params verrors
      obtain ⟨name, param⟩ := hd
      cases hres : param.extract (.queryParams queries) with
      | ok v =>
          simp [queryLoop, hres, ih, extractParamsWith, extractErrsWith]
      | error e =>
          simp [queryLoop, hres, ih, extractParamsWith, extractErrsWith]

/-- The path loop fills one param per success and appends one problem per
failure, in order. -/
theorem pathLoop_eq (paths : List (String × String)) :
    ∀ (items : List (String × PathParam)) (params : List (String × Val))
      (verrors : List ValidationProblem),
      pathLoop paths items params verrors =
        (extractParamsWith (fun p => p.extract paths) items params,
         verrors ++ extractErrsWith (fun p => p.extract paths) items) := by
  intro items
  induction items with
  | nil => intro params verrors; simp [pathLoop, extractParamsWith, extractErrsWith]
  | cons hd tl ih =>
      intro params verrors
      obtain ⟨name, param⟩ := hd
      cases hres : param.extract paths with
      | ok v => simp [pathLoop, hres, ih, extractParamsWith, extractErrsWith]
      | error e => simp [pathLoop, hres, ih, extractParamsWith, extractErrsWith]

/-- With no cookie-aliased param the header loop is the same
fill-or-append sweep over header extraction. -/
theorem headerLoop_eq_of_no_cookie (headers : List (String × String)) :
    ∀ (items : List (String × HeaderEntry)),
      (∀ x ∈ items, x.2.param.alias_ ≠ "cookie") →
      ∀ params verrors,
        headerLoop headers items none params verrors =
          .ok (extractParamsWith (fun e => e.param.extract (.headers headers)) items params,
               verrors ++ extractErrsWith (fun e => e.param.extract (.headers headers)) items) := by
  intro items
  induction items with
  | nil =>
      intro _ params verrors
      simp [headerLoop, extractParamsWith, extractErrsWith]
  | cons hd tl ih =>
      intro hno params verrors
      obtain ⟨name, entry⟩ := hd
      have hc : (entry.param.alias_ == "cookie") = false := by
        have := hno (name, entry) (List.mem_cons_self _ _)
        simpa using this
      have htl : ∀ x ∈ tl, x.2.param.alias_ ≠ "cookie" := fun x hx =>
        hno x (List.mem_cons_of_mem _ hx)
      cases hres : entry.param.extract (.headers headers) with
      | ok v =>
          simp [headerLoop, hc, hres, ih htl, extractParamsWith, extractErrsWith]
      | error e =>
          simp [headerLoop, hc, hres, ih htl, extractParamsWith, extractErrsWith]

/-- When every header/cookie entry's lookup step returns — no `KeyError`
or `AttributeError` escapes the cookie branch — the header loop is the same
fill-or-append sweep over the per-entry results, cookie params included.
The cache invariant: the cookie mapping, once computed, is the parse of
the `cookie` header value. -/
theorem headerLoop_eq_of_steps_ok (headers : List (String × String)) :
    ∀ (items : List (String × HeaderEntry))
      (cache : Option (List (String × String))),
      (cache = none ∨ ∃ hv, headersGetItem headers "cookie" = some hv ∧
        cache = some (cookieParser hv)) →
      (∀ x ∈ items, ∃ r, headerEntryStep headers x.2 = .ok r) →
      ∀ params verrors,
        headerLoop headers items cache params verrors =
          .ok (headerStepParams headers items params,
               verrors ++ headerStepErrs headers items) := by
  intro items
  induction items with
  | nil =>
      intro cache _ _ params verrors
      simp [headerLoop, headerStepParams, headerStepErrs]
  | cons hd tl ih =>
      intro cache hcache hok params verrors
      obtain ⟨name, entry⟩ := hd
      have hstep := hok (name, entry) (List.mem_cons_self _ _)
      have htl : ∀ x ∈ tl, ∃ r, headerEntryStep headers x.2 = .ok r :=
        fun x hx => hok x (List.mem_cons_of_mem _ hx)
      cases hc : entry.param.alias_ == "cookie" with
      | false =>
          cases hres : entry.param.extract (.headers headers) with
          | ok v =>
              simp [headerLoop, hc, hres, headerStepParams, headerStepErrs,
                headerEntryStep, ih cache hcache htl]
          | error e =>
              simp [headerLoop, hc, hres, headerStepParams, headerStepErrs,
                headerEntryStep, ih cache hcache htl]
      | true =>
          cases hh : headersGetItem headers "cookie" with
          | none =>
              exfalso
              obtain ⟨r, hr⟩ := hstep
              simp [headerEntryStep, hc, hh] at hr
          | some hv =>
              cases hcn : entry.cookie_name with
              | none =>
                  exfalso
                  obtain ⟨r, hr⟩ := hstep
                  simp [headerEntryStep, hc, hh, hcn] at hr
              | some cn =>
                  cases hdg : dictGet (cookieParser hv) cn with
                  | none =>
                      exfalso
                      obtain ⟨r, hr⟩ := hstep
                      simp [headerEntryStep, hc, hh, hcn, hdg] at hr
                  | some cookie =>
                      have hnext := ih (some (cookieParser hv))
                        (Or.inr ⟨hv, hh, rfl⟩) htl
                      rcases hcache with hnone | ⟨hv', hh', hceq⟩
                      · subst hnone
                        cases hval : validateWith entry.param.decoder
                            entry.param.source entry.param.name (.s cookie) with
                        | ok v =>
                            simp [headerLoop, hc, hh, hcn, hdg, hval,
                              headerStepParams, headerStepErrs, headerEntryStep,
                              hnext]
                        | error e =>
                            simp [headerLoop, hc, hh, hcn, hdg, hval,
                              headerStepParams, headerStepErrs, headerEntryStep,
                              hnext]
                      · have hveq : hv' = hv := Option.some.inj (hh'.symm.trans hh)
                        subst hveq
                        subst hceq
                        cases hval : validateWith entry.param.decoder
                            entry.param.source entry.param.name (.s cookie) with
                        | ok v =>
                            simp [headerLoop, hc, hcn, hdg, hval,
                              headerStepParams, headerStepErrs, headerEntryStep,
                              hh, hnext]
                        | error e =>
                            simp [headerLoop, hc, hcn, hdg, hval,
                              headerStepParams, headerStepErrs, headerEntryStep,
                              hh, hnext]

/-- C1 counterexample: the claim promises that two simultaneously-invalid
parameters produce one aggregated exception whose problem list has one
entry per failed parameter, with no per-field exception before all
parameters are extracted. With a declared `session_id` cookie and a
required query int `n`, a request carrying neither makes
`validate_request` raise `KeyError("cookie")` in the header phase
(`src/signature.py` line 112): the query param is never examined and no
aggregated `InvalidRequestErrors` or problem list is produced. -/
theorem c1_cookie_abort_counterexample :
    cookiePlusQueryInjector.validateRequest bareRequest (fun _ _ => .vNone) =
      .error (.keyError "cookie") := rfl

/-- C1 (amended): whenever every declared cookie param's cookie lookup
succeeds — in particular whenever no cookie param is declared —
`_validate_conn` never raises per-field: it returns the `ParseResult`
whose problem list stacks exactly one problem per failed header, cookie,
path and query param, in phase order; `validate_request` appends the body
problems and only then raises the single aggregated `InvalidRequestErrors`
carrying that whole list. On the two-invalid-parameter requests (missing
required header `x-token` + malformed query int `n`, and malformed cookie
`session_id` + missing query int `n`) the raised detail list has exactly
the two problems with their locations and param names. A cookie param
whose `cookie` header or named cookie is absent instead aborts extraction
with an uncaught `KeyError` (the counterexample; see C10). -/
theorem c1_aggregated_errors_amended (inj : Injector) (conn : Conn)
    (hok : ∀ x ∈ inj.header_params, ∃ r, headerEntryStep conn.headers x.2 = .ok r) :
    (inj.validateConn conn =
      .ok ⟨extractParamsWith (fun p => p.extract (.queryParams conn.query_params))
            inj.query_params
            (extractParamsWith (fun p => p.extract conn.path_params)
              inj.path_params
              (headerStepParams conn.headers inj.header_params [])),
           headerStepErrs conn.headers inj.header_params ++
            extractErrsWith (fun p => p.extract conn.path_params)
              inj.path_params ++
            extractErrsWith (fun p => p.extract (.queryParams conn.query_params))
              inj.query_params,
           []⟩)
    ∧ (∀ (req : Request) (aresolve : String → List (String × Val) → Val),
        req.conn = conn → inj.body_param = none →
        (headerStepErrs conn.headers inj.header_params ++
          extractErrsWith (fun p => p.extract conn.path_params)
            inj.path_params ++
          extractErrsWith (fun p => p.extract (.queryParams conn.query_params))
            inj.query_params) ≠ [] →
        inj.validateRequest req aresolve =
          .error (.invalidRequestErrors
            (headerStepErrs conn.headers inj.header_params ++
              extractErrsWith (fun p => p.extract conn.path_params)
                inj.path_params ++
              extractErrsWith (fun p => p.extract (.queryParams conn.query_params))
                inj.query_params)))
    ∧ (∀ (req : Request) (aresolve : String → List (String × Val) → Val)
        (name : String) (bp : BodyEntry) (eb : ValidationProblem),
        req.conn = conn → inj.body_param = some (name, bp) →
        inj.form_meta = none → bp.extract (.bytes req.body) = .error eb →
        inj.validateRequest req aresolve =
          .error (.invalidRequestErrors
            ((headerStepErrs conn.headers inj.header_params ++
              extractErrsWith (fun p => p.extract conn.path_params)
                inj.path_params ++
              extractErrsWith (fun p => p.extract (.queryParams conn.query_params))
                inj.query_params) ++ [eb])))
    ∧ (twoInvalidInjector.validateRequest twoInvalidRequest (fun _ _ => .vNone) =
        .error (.invalidRequestErrors
          [.missingRequestParam .header "x-token",
           .invalidDataType .query "n" "Expected `int`"]))
    ∧ (cookieDecodePlusQueryInjector.validateRequest cookieAbcRequest
          (fun _ _ => .vNone) =
        .error (.invalidRequestErrors
          [.invalidDataType .header "session_id" "Expected `int`",
           .missingRequestParam .query "n"])) := by
  have hconn : inj.validateConn conn =
      .ok ⟨extractParamsWith (fun p => p.extract (.queryParams conn.query_params))
            inj.query_params
            (extractParamsWith (fun p => p.extract conn.path_params)
              inj.path_params
              (headerStepParams conn.headers inj.header_params [])),
           headerStepErrs conn.headers inj.header_params ++
            extractErrsWith (fun p => p.extract conn.path_params)
              inj.path_params ++
            extractErrsWith (fun p => p.extract (.queryParams conn.query_params))
              inj.query_params,
           []⟩ := by
    unfold Injector.validateConn
    rw [headerLoop_eq_of_steps_ok conn.headers inj.header_params none
      (Or.inl rfl) hok [] []]
    simp [pathLoop_eq, queryLoop_eq]
  refine ⟨hconn, ?_, ?_, rfl, rfl⟩
  · intro req aresolve hreq hbody hne
    unfold Injector.validateRequest
    rw [hreq, hconn, hbody]
    simp only [List.isEmpty_eq_true, List.append_assoc]
    rw [if_neg (by intro h; exact hne (by simpa [List.append_assoc] using h))]
  · intro req aresolve name bp eb hreq hbody hform hext
    unfold Injector.validateRequest
    rw [hreq, hconn, hbody, hform]
    simp only [hext, List.isEmpty_eq_true, List.append_assoc]
    rw [if_neg (by simp)]

/-- Witness for the amended C1: a malformed cookie and a missing query int
aggregate into the two-problem raise through the general statement. -/
theorem c1_aggregated_errors_amended_witness :
    cookieDecodePlusQueryInjector.validateRequest cookieAbcRequest
        (fun _ _ => .vNone) =
      .error (.invalidRequestErrors
        [.invalidDataType .header "session_id" "Expected `int`",
         .missingRequestParam .query "n"]) :=
  (c1_aggregated_errors_amended cookieDecodePlusQueryInjector
    cookieAbcRequest.conn
    (by intro x hx
        simp [cookieDecodePlusQueryInjector] at hx
        rw [hx]
        exact ⟨_, rfl⟩)).2.1 cookieAbcRequest (fun _ _ => .vNone) rfl rfl
    (by decide)

/-- C5: a query (or header) param absent from the request with a declared
default extracts successfully to the default — deep-copied in multivals
mode, the mode of mutable-sequence-typed params — and `f(q: int = 42)`
with no `q` in the query string yields `params = [("q", 42)]`; absent with
no default, extraction yields a `MissingRequestParam` problem. -/
theorem c5_default_substitution (p : QueryParam) (queries : WireDict) :
    (p.multivals = false → queries.get p.alias_ = none →
      (∀ d, p.default = some d → p.extract queries = .ok d) ∧
      (p.default = none →
        p.extract queries = .error (.missingRequestParam p.source p.alias_)))
    ∧ (p.multivals = true → queries.getlist p.alias_ = [] →
      (∀ d, p.default = some d → p.extract queries = .ok (deepcopy d)) ∧
      (p.default = none →
        p.extract queries = .error (.missingRequestParam p.source p.alias_)))
    ∧ qParam42.extract (.queryParams []) = .ok (.vInt 42)
    ∧ Injector.validateConn queryDefaultInjector ⟨[], [], []⟩ =
        .ok ⟨[("q", .vInt 42)], [], []⟩ := by
  refine ⟨?_, ?_, rfl, rfl⟩
  · intro hm hget
    constructor
    · intro d hd
      simp [QueryParam.extract, hm, hget, hd]
    · intro hd
      simp [QueryParam.extract, hm, hget, hd]
  · intro hm hget
    constructor
    · intro d hd
      simp [QueryParam.extract, hm, hget, hd]
    · intro hd
      simp [QueryParam.extract, hm, hget, hd]

/-- Witness for C5: the scenario param `q: int = 42` extracted from an
empty query string substitutes `42` by the general default branch. -/
theorem c5_default_substitution_witness :
    qParam42.extract (.queryParams []) = .ok (.vInt 42) :=
  ((c5_default_substitution qParam42 (.queryParams [])).1 rfl rfl).1
    (.vInt 42) rfl

/-- C6: a query/header param whose declared type is a non-textual sequence
is in multivals mode and its extraction reads *all* repeated occurrences
of the wire key; `list[int]` against `n=1&n=2` decodes to `[1, 2]` and
`tuple[int, ...]` to `(1, 2)`. -/
theorem c6_multivals_reads_all (p : QueryParam) (queries : WireDict) :
    (p.multivals = isNontextualSequence false p.type_)
    ∧ (∀ l, p.multivals = true → queries.getlist p.alias_ = l → l ≠ [] →
        p.extract queries = validateWith p.decoder p.source p.name (.l l))
    ∧ isNontextualSequence false (.generic "list" [.ty (.base "int")]) = true
    ∧ isNontextualSequence false
        (.generic "tuple" [.ty (.base "int"), .other 0]) = true
    ∧ isNontextualSequence false (.base "str") = false
    ∧ isNontextualSequence false (.base "bytes") = false
    ∧ nListParam.extract (.queryParams [("n", "1"), ("n", "2")]) =
        .ok (.vList [.vInt 1, .vInt 2])
    ∧ nTupleParam.extract (.queryParams [("n", "1"), ("n", "2")]) =
        .ok (.vTuple [.vInt 1, .vInt 2]) := by
  refine ⟨rfl, ?_, rfl, rfl, rfl, rfl, rfl, rfl⟩
  intro l hm hget hne
  cases l with
  | nil => exact absurd rfl hne
  | cons x xs => simp [QueryParam.extract, hm, hget]

/-- Witness for C6: the `list[int]` param against the wire occurrences
`n=1&n=2` goes through the multivals branch of the general statement. -/
theorem c6_multivals_reads_all_witness :
    nListParam.extract (.queryParams [("n", "1"), ("n", "2")]) =
      validateWith nListParam.decoder nListParam.source nListParam.name
        (.l ["1", "2"]) :=
  (c6_multivals_reads_all nListParam
      (.queryParams [("n", "1"), ("n", "2")])).2.1 ["1", "2"] rfl rfl (by simp)

/-- C7: constructing an `EndpointReturn` whose status is below 200 or in
`{204, 205, 304}` together with a return type that is not empty (not
`None` and not `Literal[None]`) raises `StatusConflictError` at setup
time; with an empty type, construction at those status codes succeeds, and
at every other status code any type is accepted. -/
theorem c7_status_type_conflict (type_ : Option PyTy) (status : Nat)
    (encoder : Encoder) (mark : String) (annot : Option PyTy)
    (ct : Option String) :
    (EndpointReturn.make type_ status encoder mark annot ct =
        .error (.statusConflictError status type_)
      ↔ ((status < 200 ∨ status = 204 ∨ status = 205 ∨ status = 304) ∧
          isEmptyReturn type_ = false))
    ∧ (EndpointReturn.make type_ status encoder mark annot ct =
        .ok ⟨type_, status, encoder, mark, annot, ct⟩
      ↔ ¬ ((status < 200 ∨ status = 204 ∨ status = 205 ∨ status = 304) ∧
          isEmptyReturn type_ = false)) := by
  unfold EndpointReturn.make
  by_cases h : status < 200 ∨ status = 204 ∨ status = 205 ∨ status = 304
  · simp only [if_pos h]
    cases he : isEmptyReturn type_ <;> simp [he, h]
  · simp [if_neg h, h]

/-- Witness for C7 at a concrete input: status 204 with a non-empty
`int` return type is rejected. -/
theorem c7_status_type_conflict_witness :
    EndpointReturn.make (some (.base "int")) 204 (.jsonFactory none) "json"
        none none =
      .error (.statusConflictError 204 (some (.base "int"))) :=
  (c7_status_type_conflict (some (.base "int")) 204 (.jsonFactory none)
      "json" none none).1.mpr ⟨by omega, rfl⟩

/-- C8: constructing a `PathParam` with a present (non-`MISSING`) default
raises `NotSupportedError` eagerly, so every successfully constructed path
param is required. -/
theorem c8_path_default_rejected (name alias_ : String) (type_ : PyTy)
    (decoder : String → Except DecodeErr Val) (default : Option Val) :
    (default ≠ none →
      PathParam.make name alias_ type_ decoder default =
        .error (.notSupportedError "Path param with default value is not supported"))
    ∧ (∀ p, PathParam.make name alias_ type_ decoder default = .ok p →
        requiredOf p.default = true) := by
  constructor
  · intro h
    unfold PathParam.make
    cases default with
    | none => exact absurd rfl h
    | some v => rfl
  · intro p hp
    unfold PathParam.make at hp
    cases default with
    | none => cases hp; rfl
    | some v => simp [requiredOf] at hp

/-- Witness for C8 at a concrete input: a path param with default `1` is
rejected. -/
theorem c8_path_default_rejected_witness :
    PathParam.make "user_id" "user_id" (.base "int") decodeIntStr
        (some (.vInt 1)) =
      .error (.notSupportedError "Path param with default value is not supported") :=
  (c8_path_default_rejected "user_id" "user_id" (.base "int") decodeIntStr
      (some (.vInt 1))).1 (by simp)

/-- C9: `EndpointParams.get_body` returns `None` when no body param is
registered, the single `(name, param)` pair when exactly one is, and
raises `NotSupportedError` when two or more are. -/
theorem c9_single_body_enforced (ep : EndpointParams) :
    (ep.bodies = [] → ep.get_body = .ok none)
    ∧ (∀ b, ep.bodies = [b] → ep.get_body = .ok (some b))
    ∧ (2 ≤ ep.bodies.length → ep.get_body =
        .error (.notSupportedError "Endpoint with multiple body params is not supported")) := by
  refine ⟨?_, ?_, ?_⟩
  · intro h
    unfold EndpointParams.get_body
    rw [h]
  · intro b h
    unfold EndpointParams.get_body
    rw [h]
  · intro h
    unfold EndpointParams.get_body
    match hb : ep.bodies with
    | [] => rw [hb] at h; simp at h
    | [b] => rw [hb] at h; simp at h
    | b₁ :: b₂ :: rest => rfl

/-- Witness for C9 at a concrete input: two registered body params raise
`NotSupportedError`. -/
theorem c9_single_body_enforced_witness :
    twoBodiesEndpointParams.get_body =
      .error (.notSupportedError "Endpoint with multiple body params is not supported") :=
  (c9_single_body_enforced twoBodiesEndpointParams).2.2 (by decide)

/-- `_validate_conn` always returns an empty callback list
(`src/signature.py` line 141). -/
theorem validateConn_callbacks_empty (inj : Injector) (conn : Conn)
    (pr : ParseResult) (h : inj.validateConn conn = .ok pr) :
    pr.callbacks = [] := by
  unfold Injector.validateConn at h
  cases hh : headerLoop conn.headers inj.header_params none [] [] with
  | error e => rw [hh] at h; cases h
  | ok res => rw [hh] at h; cases h; rfl

/-- A `ParseResult` returned by `validate_request` carries exactly the
callbacks registered during its body phase (the form-close callback of a
successful multipart parse). -/
theorem validateRequest_callbacks_eq (inj : Injector) (req : Request)
    (ares : String → List (String × Val) → Val) (pr : ParseResult)
    (h : inj.validateRequest req ares = .ok pr) :
    pr.callbacks = registeredFormCallbacks inj req := by
  unfold Injector.validateRequest at h
  cases hc : inj.validateConn req.conn with
  | error e => rw [hc] at h; cases h
  | ok parsed =>
      rw [hc] at h
      dsimp only at h
      have hcb : parsed.callbacks = [] :=
        validateConn_callbacks_empty _ _ _ hc
      unfold registeredFormCallbacks
      cases hb : inj.body_param with
      | none =>
          simp only [hb] at h ⊢
          split at h
          · split at h
            · cases h
            · cases h; simpa using hcb
          · cases h
      | some nb =>
          obtain ⟨name, bp⟩ := nb
          simp only [hb] at h ⊢
          cases hf : inj.form_meta with
          | none =>
              simp only [hf] at h ⊢
              split at h
              · split at h
                · cases h
                · cases h
                  cases hext : bp.extract (BodyVal.bytes req.body) <;>
                    simp [hext, hcb]
              · cases h
          | some fm =>
              simp only [hf] at h ⊢
              cases hfr : req.formResult fm with
              | error u =>
                  simp only [hfr] at h ⊢
                  split at h
                  · split at h
                    · cases h
                    · cases h
                      cases hext : bp.extract (BodyVal.bytes "") <;>
                        simp [hext, hcb]
                  · cases h
              | ok fd =>
                  simp only [hfr] at h ⊢
                  split at h
                  · split at h
                    · cases h
                    · cases h
                      cases hext : bp.extract (BodyVal.form fd) <;>
                        simp [hext, hcb]
                  · cases h

/-- C3 counterexample: on a request whose multipart parse succeeds (so the
form-close callback is registered in the `ParseResult`) but whose query
param is missing, `validate_request` raises the aggregated validation
error and `make_call`, whose local `callbacks` is still `None` in its
`finally` block, runs *no* callback — the registered cleanup is lost,
contradicting the claim for the validation-failure (and
cancelled-mid-extraction) outcome. -/
theorem c3_callback_lost_counterexample :
    registeredFormCallbacks formPlusQueryInjector formOkRequest =
        [.formClose sampleFormData]
    ∧ formPlusQueryInjector.validateRequest formOkRequest (fun _ _ => .vNone) =
        .error (.invalidRequestErrors [.missingRequestParam .query "n"])
    ∧ (makeCall formPlusQueryInjector formOkRequest (fun _ _ => .vNone)
        (fun _ => .ok .vNone) (fun _ => none)).ran_callbacks = [] :=
  ⟨rfl, rfl, rfl⟩

/-- C3 (amended): callbacks registered in the request's `ParseResult` run
after the handler whenever `validate_request` returns — both when the
handler succeeds and when it raises — but when `validate_request` itself
raises (aggregated validation failure, or any abort mid-extraction),
`make_call` never receives the `ParseResult` and runs no callback. -/
theorem c3_callbacks_amended (inj : Injector) (req : Request)
    (ares : String → List (String × Val) → Val)
    (func : List (String × Val) → Except Err Val)
    (solver : Err → Option Nat) :
    (∀ pr, inj.validateRequest req ares = .ok pr →
      (makeCall inj req ares func solver).ran_callbacks = pr.callbacks)
    ∧ (∀ e, inj.validateRequest req ares = .error e →
      (makeCall inj req ares func solver).ran_callbacks = [])
    ∧ (makeCall formOnlyInjector formOkRequest (fun _ _ => .vNone)
        (fun _ => .ok .vNone) (fun _ => none)).ran_callbacks =
        [.formClose sampleFormData]
    ∧ (makeCall formOnlyInjector formOkRequest (fun _ _ => .vNone)
        (fun _ => .error .typeError) (fun _ => none)).ran_callbacks =
        [.formClose sampleFormData] := by
  refine ⟨?_, ?_, rfl, rfl⟩
  · intro pr hpr
    unfold makeCall
    rw [hpr]
    dsimp only
    cases hf : func pr.params with
    | ok v => simp [hf]
    | error e => simp [hf]
  · intro e he
    unfold makeCall
    rw [he]

/-- Witness for the amended C3: the form-only fixture returns its parse
result and the ran callbacks equal its registered callbacks. -/
theorem c3_callbacks_amended_witness :
    (makeCall formOnlyInjector formOkRequest (fun _ _ => .vNone)
      (fun _ => .ok .vNone) (fun _ => none)).ran_callbacks =
      (⟨[("form", .vNone)], [], [.formClose sampleFormData]⟩ : ParseResult).callbacks :=
  (c3_callbacks_amended formOnlyInjector formOkRequest (fun _ _ => .vNone)
    (fun _ => .ok .vNone) (fun _ => none)).1
    ⟨[("form", .vNone)], [], [.formClose sampleFormData]⟩ rfl

/-- A single scan step leaves the status unchanged when the metadata item
is not a status marker. -/
theorem retScanStep_status (metas : List PyMeta) (annot : Option PyTy)
    (meta : PyMeta) (idx : Nat) (st st' : RetScan)
    (hm : isStatusMeta meta = false)
    (h : retScanStep metas annot meta idx st = .ok st') :
    st'.status = st.status := by
  unfold retScanStep at h
  split at h
  · cases h; rfl
  · split at h
    · split at h
      · cases h
        simp [hm]
      · split at h
        · cases h; rfl
        · split at h
          · cases h
          · split at h
            · cases h; rfl
            · cases h
            · cases h
    · cases h
      simp [hm]

/-- The metadata scan of `parse_return_pro` leaves the status unchanged
when the remaining metadata contains no status marker. -/
theorem retScanLoop_status_of_no_status (metas : List PyMeta)
    (annot : Option PyTy) :
    ∀ (rest : List PyMeta) (idx : Nat) (st : RetScan),
      (∀ m ∈ rest, isStatusMeta m = false) →
      ∀ st', retScanLoop metas annot rest idx st = .ok st' →
        st'.status = st.status := by
  intro rest
  induction rest with
  | nil =>
      intro idx st _ st' h
      cases h
      rfl
  | cons m tl ih =>
      intro idx st hno st' h
      have hm : isStatusMeta m = false := hno m (List.mem_cons_self _ _)
      have htl : ∀ x ∈ tl, isStatusMeta x = false := fun x hx =>
        hno x (List.mem_cons_of_mem _ hx)
      unfold retScanLoop at h
      cases hstep : retScanStep metas annot m idx st with
      | error e => rw [hstep] at h; cases h
      | ok st1 =>
          rw [hstep] at h
          rw [ih _ _ htl st' h]
          exact retScanStep_status metas annot m idx st st1 hm hstep

/-- `parse_return_pro` yields status 200 whenever its metadata carries no
status marker (in particular for `None` metadata). -/
theorem parseReturnPro_status_200 (rt : PyTy) (annot : Option PyTy)
    (metas : Option (List PyMeta))
    (hns : ∀ ms, metas = some ms → ∀ m ∈ ms, isStatusMeta m = false)
    (r : EndpointReturn) (hr : parseReturnPro rt annot metas = .ok r) :
    r.status = 200 := by
  cases metas with
  | none =>
      have hdef : parseReturnPro rt annot none =
          .ok ⟨some rt, 200, .jsonFactory (some rt), "json", annot,
            some "application/json"⟩ := rfl
      rw [hdef] at hr
      cases hr
      rfl
  | some ms =>
      unfold parseReturnPro at hr
      dsimp only at hr
      cases hscan : retScanLoop ms annot ms 0
          ⟨none, 200, "json", some "application/json", rt⟩ with
      | error e => rw [hscan] at hr; cases hr
      | ok st =>
          rw [hscan] at hr
          have hst : st.status = 200 :=
            retScanLoop_status_of_no_status ms annot ms 0 _ (hns ms rfl) st hscan
          dsimp only at hr
          split at hr
          · cases hr
          · split at hr
            · unfold EndpointReturn.make at hr
              split at hr
              · split at hr
                · cases hr
                · cases hr; simpa using hst
              · cases hr; simpa using hst
            · unfold EndpointReturn.make at hr
              split at hr
              · split at hr
                · cases hr
                · cases hr; simpa using hst
              · cases hr; simpa using hst

/-- C4 counterexample: `Annotated[int, OK] | Annotated[str, OK]` has two
members, each carrying an explicit status marker, and only one distinct
status — the claim demands `NotSupportedError`, but `parse_returns`
returns a one-entry map (the later member overwriting the earlier): the
source compares the number of *marker-carrying members* with the member
count, never the number of distinct statuses. -/
theorem c4_union_dup_status_counterexample :
    (unionMembers unionDupStatus).length = 2
    ∧ parseReturns 10 (some unionDupStatus) =
        .ok [(200, ⟨some (.base "str"), 200, .jsonFactory (some (.base "str")),
              "json", some (.base "str"), some "application/json"⟩)] :=
  ⟨rfl, rfl⟩

/-- C4 (amended): for a union return annotation, `parse_returns` raises
`NotSupportedError` exactly when the number of members whose resolved
metadata carries a status marker is nonzero and differs from the *member
count* (duplicate statuses are not detected: with every member marked, the
per-member results are keyed by status with later members overwriting
earlier ones); when no member carries a status marker, the union resolves
as a whole and — its accumulated metadata then carrying no status marker —
becomes a single status-200 entry whose type is the union. -/
theorem c4_union_status_count_amended (fuel : Nat) (annt : PyTy)
    (hu : isUnionType annt = true)
    (temp : List (PyTy × Option (List PyMeta)))
    (htemp : tempUnionLoop fuel (unionMembers annt) = .ok temp) :
    (respCount temp ≠ 0 → respCount temp ≠ (unionMembers annt).length →
      parseReturns fuel (some annt) =
        .error (.notSupportedError "union size and status dismatched"))
    ∧ (respCount temp ≠ 0 → respCount temp = (unionMembers annt).length →
      ∀ resps, respsLoop temp = .ok resps →
        parseReturns fuel (some annt) = .ok (buildStatusMap resps))
    ∧ (respCount temp = 0 →
      ∀ uo um r, getOriginPro fuel annt none none = .ok (uo, um) →
        parseReturnPro uo (some annt) um = .ok r →
        (∀ ms, um = some ms → ∀ m ∈ ms, isStatusMeta m = false) →
        parseReturns fuel (some annt) = .ok [(r.status, r)] ∧ r.status = 200) := by
  refine ⟨?_, ?_, ?_⟩
  · intro h1 h2
    unfold parseReturns
    simp only [hu, Bool.not_true, Bool.false_eq_true, if_false, htemp]
    rw [if_pos ⟨h1, h2⟩]
  · intro h1 h2 resps hresps
    unfold parseReturns
    simp only [hu, Bool.not_true, Bool.false_eq_true, if_false, htemp]
    rw [if_neg (fun hand => hand.2 h2), if_neg h1, hresps]
  · intro h0 uo um r hgop hpro hns
    refine ⟨?_, parseReturnPro_status_200 uo (some annt) um hns r hpro⟩
    unfold parseReturns
    simp only [hu, Bool.not_true, Bool.false_eq_true, if_false, htemp]
    rw [if_neg (fun hand => hand.1 h0), if_pos h0, hgop]
    dsimp only
    rw [hpro]

/-- Witness for the amended C4: `Annotated[int, CREATED] | str` has one
marker-carrying member out of two, so `parse_returns` raises. -/
theorem c4_union_status_count_amended_witness :
    parseReturns 10 (some unionPartialStatus) =
      .error (.notSupportedError "union size and status dismatched") :=
  (c4_union_status_count_amended 10 unionPartialStatus rfl
      [(.base "int", some [.status 201]), (.base "str", none)] rfl).1
    (by decide) (by decide)

end Lihil
